import Mathlib

/-!
# The m61 allocation tracker (src/pset1/m61.c)

A shallow embedding of the diagnostic allocator of m61.c and theorems about
its statistics bookkeeping.

Conventions of the embedding:

* size_t, unsigned long long and pointers are 64-bit: they are natural numbers
  below 2^64 and every C addition or subtraction on them is taken modulo 2^64.
* NULL is the address 0.
* Memory is a map from byte addresses to byte values; the size_t of a block
  header occupies eight consecutive bytes, least significant byte first.
* base_malloc and base_free are external.  The value base_malloc returns is an
  argument (named block, as the local variable of m61_malloc that receives it),
  and every call made to the two functions is appended to a log kept in the
  state, so that "the provider was asked for n bytes" and "the provider was
  not called" are statements about that log.
-/

namespace M61

/-- Number of values of a 64-bit word: size_t and pointer arithmetic wrap at this modulus. -/
def WORD : Nat := 2 ^ 64

/-- The constant written (size_t) -1 in m61.c, the largest size_t. -/
def SIZE_MAX : Nat := 2 ^ 64 - 1

/-- The value of sizeof(struct metadata): the struct holds one size_t, data_size. -/
def header_size : Nat := 8

/-- Unsigned 64-bit addition, as performed by ++ and += on the statistics and by pointer + size. -/
def u64_add (a b : Nat) : Nat := (a + b) % WORD

/-- Unsigned 64-bit subtraction, as performed by -- and -= on the statistics and by pointer - size:
the two's complement of b is added to a. -/
def u64_sub (a b : Nat) : Nat := ((WORD - b % WORD) + a) % WORD

/-- Modelled from the spec: struct m61_statistics is declared in m61.h, which is not among the
sources; its eight fields are the ones of the Statistics Aggregator table, under the names m61.c
uses for them.  The two heap bounds are addresses, 0 standing for NULL. -/
structure m61_statistics where
  nactive : Nat
  active_size : Nat
  ntotal : Nat
  total_size : Nat
  nfail : Nat
  fail_size : Nat
  heap_min : Nat
  heap_max : Nat
deriving DecidableEq, Repr

/-- Byte-addressed memory. -/
abbrev Mem := Nat → Nat

/-- Store of a size_t at address a: eight bytes, least significant first. -/
def store64 (m : Mem) (a v : Nat) : Mem :=
  fun x => if a ≤ x ∧ x < a + 8 then (v / 256 ^ (x - a)) % 256 else m x

/-- Load of a size_t from address a. -/
def load64 (m : Mem) (a : Nat) : Nat :=
  m a % 256 + (m (a + 1) % 256) * 256 ^ 1 + (m (a + 2) % 256) * 256 ^ 2
    + (m (a + 3) % 256) * 256 ^ 3 + (m (a + 4) % 256) * 256 ^ 4
    + (m (a + 5) % 256) * 256 ^ 5 + (m (a + 6) % 256) * 256 ^ 6
    + (m (a + 7) % 256) * 256 ^ 7

/-- The C library memcpy(dst, src, n): n bytes starting at src are copied to dst.  Every byte is
read from the memory before the call; this is what C defines when the two ranges do not overlap.
When they overlap C leaves the result undefined, and the value given here is only one of the
results a library may produce (memcpy_down gives another). -/
def memcpy (m : Mem) (dst src n : Nat) : Mem :=
  fun x => if dst ≤ x ∧ x < dst + n then m (src + (x - dst)) else m x

/-- Another behaviour of the C library memcpy(dst, src, n): the bytes are copied one at a time from
the highest offset down, each read from the memory as it is at that moment.  It is the same
function as memcpy on ranges that do not overlap (memcpy_down_eq) and differs from it on ranges
that do. -/
def memcpy_down (m : Mem) (dst src : Nat) : Nat → Mem
  | 0 => m
  | n + 1 => memcpy_down (fun x => if x = dst + n then m (src + n) else m x) dst src n

/-- The C library memset(p, c, n): n bytes starting at p are set to c. -/
def memset (m : Mem) (p c n : Nat) : Mem :=
  fun x => if p ≤ x ∧ x < p + n then c % 256 else m x

/-- One interaction with the Raw Provider: a call of base_malloc with the byte count asked and the
address it returned, or a call of base_free with the address passed. -/
inductive ProviderCall where
  | base_malloc (bytes : Nat) (result : Nat)
  | base_free (addr : Nat)
deriving DecidableEq, Repr

/-- The state m61.c acts on: the global stat_store, the memory, and the log of provider calls. -/
structure State where
  stat_store : m61_statistics
  mem : Mem
  calls : List ProviderCall

/-- The initializer of stat_store: six zero counters and two NULL heap bounds. -/
def stat_store_init : m61_statistics :=
  { nactive := 0, active_size := 0, ntotal := 0, total_size := 0,
    nfail := 0, fail_size := 0, heap_min := 0, heap_max := 0 }

/-- The state at program start, over a given memory. -/
def State.init (m : Mem) : State :=
  { stat_store := stat_store_init, mem := m, calls := [] }

/-- The function m61_malloc(sz); block is what base_malloc returns if it is called. -/
def m61_malloc (s : State) (sz : Nat) (block : Nat) : Nat × State :=
  if sz = SIZE_MAX then
    (0, { s with stat_store :=
            { s.stat_store with
              nfail := u64_add s.stat_store.nfail 1
              fail_size := u64_add s.stat_store.fail_size sz } })
  else
    let calls := s.calls ++ [ProviderCall.base_malloc (u64_add header_size sz) block]
    if block = 0 then
      (block, { s with
                calls := calls
                stat_store :=
                  { s.stat_store with
                    nfail := u64_add s.stat_store.nfail 1
                    fail_size := u64_add s.stat_store.fail_size sz } })
    else
      let mem := store64 s.mem block sz
      let data := u64_add block header_size
      let data_size := load64 mem block
      let heap_min :=
        if s.stat_store.heap_min = 0 ∨ data ≤ s.stat_store.heap_min then data
        else s.stat_store.heap_min
      let heap_max :=
        if s.stat_store.heap_max = 0 ∨ u64_add data sz ≥ s.stat_store.heap_max then u64_add data sz
        else s.stat_store.heap_max
      (data, { stat_store :=
                 { s.stat_store with
                   ntotal := u64_add s.stat_store.ntotal 1
                   nactive := u64_add s.stat_store.nactive 1
                   total_size := u64_add s.stat_store.total_size data_size
                   active_size := u64_add s.stat_store.active_size data_size
                   heap_min := heap_min
                   heap_max := heap_max }
               mem := mem
               calls := calls })

/-- The function m61_free(ptr). -/
def m61_free (s : State) (ptr : Nat) : State :=
  if ptr = 0 then s
  else
    let data_size := u64_sub ptr header_size
    { s with
      stat_store :=
        { s.stat_store with
          nactive := u64_sub s.stat_store.nactive 1
          active_size := u64_sub s.stat_store.active_size (load64 s.mem data_size) }
      calls := s.calls ++ [ProviderCall.base_free ptr] }

/-- The function m61_realloc(ptr, sz); block is what base_malloc returns if it is called. -/
def m61_realloc (s : State) (ptr sz : Nat) (block : Nat) : Nat × State :=
  let r := if sz ≠ 0 then m61_malloc s sz block else (0, s)
  let new_ptr := r.1
  let s1 := r.2
  let s2 :=
    if ptr ≠ 0 ∧ new_ptr ≠ 0 then
      let old_size := u64_sub ptr header_size
      { s1 with mem := memcpy s1.mem new_ptr ptr (load64 s1.mem old_size) }
    else s1
  (new_ptr, m61_free s2 ptr)

/-- The function m61_calloc(nmemb, sz); block is what base_malloc returns if it is called. -/
def m61_calloc (s : State) (nmemb sz : Nat) (block : Nat) : Nat × State :=
  let r := m61_malloc s (nmemb * sz % WORD) block
  if r.1 ≠ 0 then
    (r.1, { r.2 with mem := memset r.2.mem r.1 0 (nmemb * sz % WORD) })
  else r

/-- The function m61_getstatistics(stats): the record written through the pointer, and the state. -/
def m61_getstatistics (s : State) (stats : m61_statistics) : m61_statistics × State :=
  ({ stats with
     nactive := s.stat_store.nactive
     active_size := s.stat_store.active_size
     ntotal := s.stat_store.ntotal
     total_size := s.stat_store.total_size
     nfail := s.stat_store.nfail
     fail_size := s.stat_store.fail_size
     heap_min := s.stat_store.heap_min
     heap_max := s.stat_store.heap_max }, s)

/-- A call of one of the four entry points, with its arguments and, for the allocating ones, the
address base_malloc returns if it is called. -/
inductive Op where
  | malloc (sz block : Nat)
  | free (ptr : Nat)
  | realloc (ptr sz block : Nat)
  | calloc (nmemb sz block : Nat)
deriving DecidableEq, Repr

/-- The value returned by a call (0 for m61_free, which returns nothing) and the state after it. -/
def Op.run (s : State) : Op → Nat × State
  | Op.malloc sz block => m61_malloc s sz block
  | Op.free ptr => (0, m61_free s ptr)
  | Op.realloc ptr sz block => m61_realloc s ptr sz block
  | Op.calloc nmemb sz block => m61_calloc s nmemb sz block

/-- The byte count a call hands to m61_malloc (0 when it does not allocate). -/
def Op.request : Op → Nat
  | Op.malloc sz _ => sz
  | Op.free _ => 0
  | Op.realloc _ sz _ => sz
  | Op.calloc nmemb sz _ => nmemb * sz % WORD

/-- What happens in a run of a client program: a call of the tracker, or a one-byte store by the
caller into memory. -/
inductive Event where
  | call (op : Op)
  | poke (addr val : Nat)
deriving DecidableEq, Repr

/-- A state together with the bookkeeping the statistics are meant to mirror: the live allocations
as (address handed to the caller, requested size) pairs, and the exact number and byte total of the
allocations that have succeeded so far, as unbounded natural numbers. -/
structure Tracked where
  st : State
  live : List (Nat × Nat)
  ok_count : Nat
  ok_bytes : Nat

/-- Start of a run: the initial state, nothing live, nothing allocated yet. -/
def Tracked.init (m : Mem) : Tracked :=
  { st := State.init m, live := [], ok_count := 0, ok_bytes := 0 }

/-- Removal of the allocation at address ptr from the live list. -/
def release (live : List (Nat × Nat)) (ptr : Nat) : List (Nat × Nat) :=
  live.filter (fun b => b.1 ≠ ptr)

/-- Record of an allocation attempt of sz bytes that returned p: a non-NULL p becomes live. -/
def Tracked.record (t : Tracked) (r : Nat × State) (sz : Nat) : Tracked :=
  if r.1 ≠ 0 then
    { st := r.2, live := (r.1, sz) :: t.live, ok_count := t.ok_count + 1,
      ok_bytes := t.ok_bytes + sz }
  else { t with st := r.2 }

/-- One event applied to a tracked state.  A resize allocates first and releases afterwards, as
m61_realloc does. -/
def Tracked.exec (t : Tracked) : Event → Tracked
  | Event.call (Op.malloc sz block) => t.record (m61_malloc t.st sz block) sz
  | Event.call (Op.free ptr) => { t with st := m61_free t.st ptr, live := release t.live ptr }
  | Event.call (Op.realloc ptr sz block) =>
      let t1 := t.record (m61_realloc t.st ptr sz block) sz
      { t1 with live := release t1.live ptr }
  | Event.call (Op.calloc nmemb sz block) =>
      t.record (m61_calloc t.st nmemb sz block) (nmemb * sz % WORD)
  | Event.poke addr val =>
      { t with st := { t.st with mem := fun x => if x = addr then val % 256 else t.st.mem x } }

/-- A sequence of events applied from a tracked state. -/
def Tracked.run (t : Tracked) : List Event → Tracked
  | [] => t
  | e :: es => (t.exec e).run es

/-- The address ptr is the address of a live allocation. -/
def is_live (live : List (Nat × Nat)) (ptr : Nat) : Prop :=
  ∃ b ∈ live, b.1 = ptr

/-- The byte range of n bytes at block meets no live block (header and payload). -/
def fresh (live : List (Nat × Nat)) (block n : Nat) : Prop :=
  ∀ b ∈ live, block + n ≤ b.1 - header_size ∨ b.1 + b.2 ≤ block

/-- What the provider may answer to an allocation of sz bytes: nothing (the answer is also
irrelevant when m61_malloc rejects sz itself), or a block that holds the header and the sz payload
bytes, ends inside the address space and meets no live block. -/
def provider_ok (live : List (Nat × Nat)) (sz block : Nat) : Prop :=
  sz = SIZE_MAX ∨ block = 0 ∨
    (block + header_size + sz < WORD ∧ fresh live block (header_size + sz))

/-- An event that respects the contracts: sizes are size_t values; a released or resized address
is NULL or live; the provider answers as in provider_ok; a resize that moves a live block does not
copy more bytes than the new block holds; the caller does not store into the header of a live
block. -/
def Tracked.valid (t : Tracked) : Event → Prop
  | Event.call (Op.malloc sz block) => sz < WORD ∧ provider_ok t.live sz block
  | Event.call (Op.free ptr) => ptr = 0 ∨ is_live t.live ptr
  | Event.call (Op.realloc ptr sz block) =>
      sz < WORD ∧ (ptr = 0 ∨ is_live t.live ptr) ∧ (sz = 0 ∨ provider_ok t.live sz block) ∧
        ∀ b ∈ t.live, b.1 = ptr → sz = 0 ∨ sz = SIZE_MAX ∨ block = 0 ∨ b.2 ≤ sz
  | Event.call (Op.calloc nmemb sz block) =>
      nmemb < WORD ∧ sz < WORD ∧ provider_ok t.live (nmemb * sz % WORD) block
  | Event.poke addr _ => ∀ b ∈ t.live, addr < b.1 - header_size ∨ b.1 ≤ addr

/-- Every event of the sequence respects the contracts in the state it is applied to. -/
def Tracked.valid_run (t : Tracked) : List Event → Prop
  | [] => True
  | e :: es => t.valid e ∧ (t.exec e).valid_run es

/-- The provider's answer to a call does not wrap: when the call reaches base_malloc and gets a
non-NULL block, the block address plus the header size plus the requested size stays below
2^64. -/
def Op.nowrap : Op → Prop
  | Op.malloc sz block => sz = SIZE_MAX ∨ block = 0 ∨ block + header_size + sz < WORD
  | Op.free _ => True
  | Op.realloc _ sz block =>
      sz = 0 ∨ sz = SIZE_MAX ∨ block = 0 ∨ block + header_size + sz < WORD
  | Op.calloc nmemb sz block =>
      nmemb * sz % WORD = SIZE_MAX ∨ block = 0 ∨ block + header_size + nmemb * sz % WORD < WORD

/-- The same condition on events; a store by the caller involves no provider. -/
def Event.nowrap : Event → Prop
  | Event.call op => op.nowrap
  | Event.poke _ _ => True

/-- The successful allocations of a run in the order they happen: for every call that returns a
non-NULL address, that address and the byte count the call handed to m61_malloc. -/
def history (t : Tracked) : List Event → List (Nat × Nat)
  | [] => []
  | Event.call op :: es =>
      (if (op.run t.st).1 ≠ 0 then [((op.run t.st).1, op.request)] else [])
        ++ history (t.exec (Event.call op)) es
  | Event.poke addr val :: es => history (t.exec (Event.poke addr val)) es

/-- The two heap bounds lo and hi agree with a list of successful allocations: both are NULL
exactly when the list is empty, lo is a lower bound of the addresses and hi an upper bound of the
ends, and both are attained when the list is not empty. -/
def bounds_ok (lo hi : Nat) (H : List (Nat × Nat)) : Prop :=
  (lo = 0 ↔ H = []) ∧ (hi = 0 ↔ H = []) ∧
  (∀ b ∈ H, lo ≤ b.1 ∧ b.1 + b.2 ≤ hi) ∧
  (H ≠ [] → (∃ b ∈ H, b.1 = lo) ∧ ∃ b ∈ H, b.1 + b.2 = hi)

/-- A run that sets up a shrinking resize whose copy overlaps: 32 bytes are allocated on the
provider block at 4112, so the caller gets 4120, and the caller stores 7 into the first byte of
the payload and 9 into the seventeenth. -/
def overlap_setup : List Event :=
  [Event.call (Op.malloc 32 4112), Event.poke 4120 7, Event.poke 4136 9]

/-- A run that sets up a shrinking resize: 16 bytes are allocated on the provider block at 4112,
so the caller gets 4120, and the caller stores 200 into the ninth byte of the payload. -/
def shrink_setup : List Event :=
  [Event.call (Op.malloc 16 4112), Event.poke 4128 200]

/-- The shrinking resize itself: m61_realloc(4120, 8), for which the provider hands out the 16
bytes at 4096, the range just below the old block. -/
def shrink_call : Event := Event.call (Op.realloc 4120 8 4096)

/-- A memory whose bytes are all 255, used for concrete runs. -/
def dirty_mem : Mem := fun _ => 255

/-- A memory whose bytes are all zero, used for concrete runs. -/
def zero_mem : Mem := fun _ => 0

/-- A run that uses every kind of event: 10 bytes are allocated, the caller stores into them, 4
elements of 8 bytes are zero-allocated, the first block is resized to 20 bytes and the second is
released. -/
def sample_run : List Event :=
  [Event.call (Op.malloc 10 4096), Event.poke 4104 7, Event.call (Op.calloc 4 8 8192),
   Event.call (Op.realloc 4104 20 12288), Event.call (Op.free 8200)]

/-- Sum of the requested sizes of the live allocations. -/
def live_bytes (live : List (Nat × Nat)) : Nat :=
  (live.map Prod.snd).sum

/-- The bookkeeping invariant of a tracked state: every live allocation lies above NULL and ends
inside the address space, and the header in front of it holds its requested size; live blocks
(header and payload) are pairwise disjoint; nactive and active_size are the number and byte total
of the live allocations, and ntotal and total_size the number and byte total of all successful
allocations, each reduced modulo 2^64; what is live has been allocated. -/
def Tracked.inv (t : Tracked) : Prop :=
  (∀ b ∈ t.live, header_size < b.1 ∧ b.1 + b.2 < WORD ∧
      load64 t.st.mem (b.1 - header_size) = b.2) ∧
  t.live.Pairwise (fun a b => a.1 + a.2 + header_size ≤ b.1 ∨ b.1 + b.2 + header_size ≤ a.1) ∧
  t.st.stat_store.nactive = t.live.length % WORD ∧
  t.st.stat_store.active_size = live_bytes t.live % WORD ∧
  t.st.stat_store.ntotal = t.ok_count % WORD ∧
  t.st.stat_store.total_size = t.ok_bytes % WORD ∧
  t.live.length ≤ t.ok_count ∧
  live_bytes t.live ≤ t.ok_bytes

/-! ## Arithmetic and memory lemmas -/

theorem load64_lt (m : Mem) (a : Nat) : load64 m a < WORD := by
  unfold load64 WORD
  omega

theorem load64_store64_same (m : Mem) (a v : Nat) (hv : v < WORD) :
    load64 (store64 m a v) a = v := by
  unfold WORD at hv
  simp only [load64, store64]
  have e : ∀ i : Nat, i < 8 → (a ≤ a + i ∧ a + i < a + 8) := fun i hi => ⟨by omega, by omega⟩
  rw [if_pos ⟨le_refl a, by omega⟩, if_pos (e 1 (by omega)), if_pos (e 2 (by omega)),
    if_pos (e 3 (by omega)), if_pos (e 4 (by omega)), if_pos (e 5 (by omega)),
    if_pos (e 6 (by omega)), if_pos (e 7 (by omega))]
  simp only [Nat.sub_self, Nat.add_sub_cancel_left]
  norm_num
  omega

theorem load64_store64_mod (m : Mem) (a v : Nat) :
    load64 (store64 m a v) a = v % WORD := by
  unfold WORD
  simp only [load64, store64]
  have e : ∀ i : Nat, i < 8 → (a ≤ a + i ∧ a + i < a + 8) := fun i hi => ⟨by omega, by omega⟩
  rw [if_pos ⟨le_refl a, by omega⟩, if_pos (e 1 (by omega)), if_pos (e 2 (by omega)),
    if_pos (e 3 (by omega)), if_pos (e 4 (by omega)), if_pos (e 5 (by omega)),
    if_pos (e 6 (by omega)), if_pos (e 7 (by omega))]
  simp only [Nat.sub_self, Nat.add_sub_cancel_left]
  norm_num
  omega

theorem u64_add_mod (a v : Nat) : u64_add a (v % WORD) = u64_add a v := by
  unfold u64_add
  exact Nat.add_mod_mod a v WORD

/-- A load sees only the eight bytes it reads. -/
theorem load64_congr (m m2 : Mem) (a : Nat) (h : ∀ x, a ≤ x → x < a + 8 → m2 x = m x) :
    load64 m2 a = load64 m a := by
  simp only [load64]
  rw [h a (by omega) (by omega), h (a + 1) (by omega) (by omega),
    h (a + 2) (by omega) (by omega), h (a + 3) (by omega) (by omega),
    h (a + 4) (by omega) (by omega), h (a + 5) (by omega) (by omega),
    h (a + 6) (by omega) (by omega), h (a + 7) (by omega) (by omega)]

theorem u64_sub_add_cancel (a b : Nat) (ha : a < WORD) : u64_sub (u64_add a b) b = a := by
  unfold u64_sub u64_add WORD at *
  omega

theorem u64_add_lt (a b : Nat) : u64_add a b < WORD := by
  unfold u64_add WORD
  omega

theorem u64_sub_lt (a b : Nat) : u64_sub a b < WORD := by
  unfold u64_sub WORD
  omega

/-! ## The two outcomes of m61_malloc, as equations -/

theorem malloc_fail_eq (s : State) (sz block : Nat) (h : sz = SIZE_MAX ∨ block = 0) :
    (m61_malloc s sz block).1 = 0 ∧
    (m61_malloc s sz block).2.mem = s.mem ∧
    (m61_malloc s sz block).2.stat_store.nactive = s.stat_store.nactive ∧
    (m61_malloc s sz block).2.stat_store.active_size = s.stat_store.active_size ∧
    (m61_malloc s sz block).2.stat_store.ntotal = s.stat_store.ntotal ∧
    (m61_malloc s sz block).2.stat_store.total_size = s.stat_store.total_size := by
  by_cases hmax : sz = SIZE_MAX
  · simp [m61_malloc, hmax]
  · have hb : block = 0 := h.resolve_left hmax
    simp [m61_malloc, hmax, hb]

theorem malloc_ok_eq (s : State) (sz block : Nat) (hsz : sz < WORD) (hmax : sz ≠ SIZE_MAX)
    (hb : block ≠ 0) :
    (m61_malloc s sz block).1 = u64_add block header_size ∧
    (m61_malloc s sz block).2.mem = store64 s.mem block sz ∧
    (m61_malloc s sz block).2.stat_store.nactive = u64_add s.stat_store.nactive 1 ∧
    (m61_malloc s sz block).2.stat_store.active_size = u64_add s.stat_store.active_size sz ∧
    (m61_malloc s sz block).2.stat_store.ntotal = u64_add s.stat_store.ntotal 1 ∧
    (m61_malloc s sz block).2.stat_store.total_size = u64_add s.stat_store.total_size sz := by
  have hl := load64_store64_same s.mem block sz hsz
  simp only [m61_malloc, if_neg hmax, if_neg hb, hl]
  exact ⟨trivial, trivial, trivial, trivial, trivial, trivial⟩

/-- Under the provider contract an allocation either fails, or it is on the success path with a
block that lies inside the address space and meets no live block. -/
theorem malloc_outcome (live : List (Nat × Nat)) (sz block : Nat)
    (h : provider_ok live sz block) :
    (sz = SIZE_MAX ∨ block = 0) ∨
    (sz ≠ SIZE_MAX ∧ block ≠ 0 ∧ block + header_size + sz < WORD ∧
      fresh live block (header_size + sz)) := by
  by_cases hmax : sz = SIZE_MAX
  · exact Or.inl (Or.inl hmax)
  by_cases hb : block = 0
  · exact Or.inl (Or.inr hb)
  rcases h with h | h | h
  · exact absurd h hmax
  · exact absurd h hb
  · exact Or.inr ⟨hmax, hb, h.1, h.2⟩

/-! ## Removal from the live list -/

theorem release_spec (l : List (Nat × Nat))
    (hd : l.Pairwise (fun a b => a.1 + a.2 + header_size ≤ b.1 ∨ b.1 + b.2 + header_size ≤ a.1))
    (b : Nat × Nat) (hb : b ∈ l) :
    (release l b.1).length + 1 = l.length ∧ live_bytes (release l b.1) + b.2 = live_bytes l := by
  induction l with
  | nil => cases hb
  | cons a l ih =>
    rw [List.pairwise_cons] at hd
    rcases List.mem_cons.mp hb with hab | hbl
    · subst hab
      have hkeep : release l b.1 = l := by
        unfold release
        rw [List.filter_eq_self]
        intro x hx
        have := hd.1 x hx
        unfold header_size at this
        simp only [ne_eq, decide_eq_true_eq]
        omega
      have : release (b :: l) b.1 = l := by
        unfold release at hkeep ⊢
        rw [List.filter_cons_of_neg (by simp)]
        exact hkeep
      rw [this]
      simp [live_bytes, Nat.add_comm]
    · have hne : a.1 ≠ b.1 := by
        have := hd.1 b hbl
        unfold header_size at this
        omega
      have : release (a :: l) b.1 = a :: release l b.1 := by
        unfold release
        rw [List.filter_cons_of_pos (by simpa using hne)]
      rw [this]
      have ih2 := ih hd.2 hbl
      simp only [live_bytes, List.map_cons, List.sum_cons, List.length_cons] at ih2 ⊢
      omega

theorem release_null (l : List (Nat × Nat)) (h : ∀ b ∈ l, header_size < b.1) :
    release l 0 = l := by
  unfold release
  rw [List.filter_eq_self]
  intro x hx
  have := h x hx
  simp only [ne_eq, decide_eq_true_eq]
  omega

/-! ## Preservation of the bookkeeping invariant -/

theorem inv_init (m : Mem) : (Tracked.init m).inv := by
  simp [Tracked.inv, Tracked.init, State.init, stat_store_init, live_bytes]

theorem inv_mem_update (t : Tracked) (m2 : Mem) (hi : t.inv)
    (hm : ∀ b ∈ t.live, ∀ x, b.1 - header_size ≤ x → x < b.1 → m2 x = t.st.mem x) :
    Tracked.inv { t with st := { t.st with mem := m2 } } := by
  obtain ⟨h1, h2, h3, h4, h5, h6, h7, h8⟩ := hi
  refine ⟨?_, h2, h3, h4, h5, h6, h7, h8⟩
  intro b hb
  obtain ⟨ha, hb2, hc⟩ := h1 b hb
  refine ⟨ha, hb2, ?_⟩
  rw [← hc]
  apply load64_congr
  intro x hx1 hx2
  apply hm b hb x hx1
  unfold header_size at *
  omega

theorem inv_free (t : Tracked) (ptr : Nat) (hi : t.inv) (hv : ptr = 0 ∨ is_live t.live ptr) :
    Tracked.inv { t with st := m61_free t.st ptr, live := release t.live ptr } := by
  obtain ⟨h1, h2, h3, h4, h5, h6, h7, h8⟩ := hi
  rcases hv with h0 | ⟨b, hb, hbp⟩
  · subst h0
    have hs : m61_free t.st 0 = t.st := by simp [m61_free]
    rw [release_null t.live (fun b hb => (h1 b hb).1), hs]
    exact ⟨h1, h2, h3, h4, h5, h6, h7, h8⟩
  · subst hbp
    obtain ⟨ha, hb2, hc⟩ := h1 b hb
    have hp : b.1 ≠ 0 := by omega
    have hsub : u64_sub b.1 header_size = b.1 - header_size := by
      simp only [u64_sub, header_size, WORD] at ha hb2 ⊢
      omega
    obtain ⟨hl, hs⟩ := release_spec t.live h2 b hb
    have hmem : (m61_free t.st b.1).mem = t.st.mem := by simp [m61_free, hp]
    have hna : (m61_free t.st b.1).stat_store.nactive = u64_sub t.st.stat_store.nactive 1 := by
      simp [m61_free, hp]
    have hsa : (m61_free t.st b.1).stat_store.active_size
        = u64_sub t.st.stat_store.active_size b.2 := by
      simp [m61_free, hp, hsub, hc]
    have hnt : (m61_free t.st b.1).stat_store.ntotal = t.st.stat_store.ntotal := by
      simp [m61_free, hp]
    have hts : (m61_free t.st b.1).stat_store.total_size = t.st.stat_store.total_size := by
      simp [m61_free, hp]
    refine ⟨?_, ?_, ?_, ?_, ?_, ?_, ?_, ?_⟩
    · intro c hcm
      have hcl : c ∈ t.live := (List.mem_filter.mp hcm).1
      show header_size < c.1 ∧ c.1 + c.2 < WORD ∧
        load64 (m61_free t.st b.1).mem (c.1 - header_size) = c.2
      rw [hmem]
      exact h1 c hcl
    · exact List.Pairwise.filter _ h2
    · show (m61_free t.st b.1).stat_store.nactive = (release t.live b.1).length % WORD
      rw [hna, h3]
      simp only [u64_sub, WORD]
      omega
    · show (m61_free t.st b.1).stat_store.active_size = live_bytes (release t.live b.1) % WORD
      rw [hsa, h4]
      simp only [u64_sub, WORD] at hb2 ⊢
      omega
    · show (m61_free t.st b.1).stat_store.ntotal = t.ok_count % WORD
      rw [hnt, h5]
    · show (m61_free t.st b.1).stat_store.total_size = t.ok_bytes % WORD
      rw [hts, h6]
    · show (release t.live b.1).length ≤ t.ok_count
      omega
    · show live_bytes (release t.live b.1) ≤ t.ok_bytes
      omega

theorem store64_other (m : Mem) (a v x : Nat) (h : x < a ∨ a + 8 ≤ x) :
    store64 m a v x = m x := by
  unfold store64
  rw [if_neg]
  omega

theorem inv_malloc (t : Tracked) (sz block : Nat) (hi : t.inv) (hsz : sz < WORD)
    (hv : provider_ok t.live sz block) :
    (t.record (m61_malloc t.st sz block) sz).inv ∧
    ((m61_malloc t.st sz block).1 ≠ 0 →
      (m61_malloc t.st sz block).1 = block + header_size ∧ block ≠ 0 ∧
      block + header_size + sz < WORD ∧ fresh t.live block (header_size + sz) ∧
      (m61_malloc t.st sz block).2.mem = store64 t.st.mem block sz) := by
  obtain ⟨h1, h2, h3, h4, h5, h6, h7, h8⟩ := hi
  rcases malloc_outcome t.live sz block hv with hf | ⟨hmax, hb, hfit, hfresh⟩
  · obtain ⟨e1, e2, e3, e4, e5, e6⟩ := malloc_fail_eq t.st sz block hf
    have hr : t.record (m61_malloc t.st sz block) sz
        = { t with st := (m61_malloc t.st sz block).2 } := by
      simp [Tracked.record, e1]
    refine ⟨?_, fun h => absurd e1 h⟩
    rw [hr]
    refine ⟨?_, h2, ?_, ?_, ?_, ?_, h7, h8⟩
    · intro b hbm
      show header_size < b.1 ∧ b.1 + b.2 < WORD ∧
        load64 (m61_malloc t.st sz block).2.mem (b.1 - header_size) = b.2
      rw [e2]
      exact h1 b hbm
    · show (m61_malloc t.st sz block).2.stat_store.nactive = t.live.length % WORD
      rw [e3, h3]
    · show (m61_malloc t.st sz block).2.stat_store.active_size = live_bytes t.live % WORD
      rw [e4, h4]
    · show (m61_malloc t.st sz block).2.stat_store.ntotal = t.ok_count % WORD
      rw [e5, h5]
    · show (m61_malloc t.st sz block).2.stat_store.total_size = t.ok_bytes % WORD
      rw [e6, h6]
  · obtain ⟨e1, e2, e3, e4, e5, e6⟩ := malloc_ok_eq t.st sz block hsz hmax hb
    have hdata : (m61_malloc t.st sz block).1 = block + header_size := by
      rw [e1]
      simp only [u64_add, header_size, WORD] at hfit ⊢
      omega
    have hnz : (m61_malloc t.st sz block).1 ≠ 0 := by
      rw [hdata]
      unfold header_size
      omega
    have hr : t.record (m61_malloc t.st sz block) sz
        = { st := (m61_malloc t.st sz block).2, live := (block + header_size, sz) :: t.live,
            ok_count := t.ok_count + 1, ok_bytes := t.ok_bytes + sz } := by
      rw [Tracked.record, if_pos hnz, hdata]
    refine ⟨?_, fun _ => ⟨hdata, hb, hfit, hfresh, e2⟩⟩
    rw [hr]
    refine ⟨?_, ?_, ?_, ?_, ?_, ?_, ?_, ?_⟩
    · intro b hbm
      show header_size < b.1 ∧ b.1 + b.2 < WORD ∧
        load64 (m61_malloc t.st sz block).2.mem (b.1 - header_size) = b.2
      rw [e2]
      rcases List.mem_cons.mp hbm with hnew | hold
      · subst hnew
        refine ⟨?_, ?_, ?_⟩
        · show header_size < block + header_size
          omega
        · exact hfit
        · show load64 (store64 t.st.mem block sz) (block + header_size - header_size) = sz
          rw [Nat.add_sub_cancel]
          exact load64_store64_same _ _ _ hsz
      · obtain ⟨ha, hb2, hc⟩ := h1 b hold
        refine ⟨ha, hb2, ?_⟩
        rw [← hc]
        apply load64_congr
        intro x hx1 hx2
        apply store64_other
        have := hfresh b hold
        unfold header_size at *
        omega
    · show List.Pairwise _ ((block + header_size, sz) :: t.live)
      rw [List.pairwise_cons]
      refine ⟨?_, h2⟩
      intro b hbm
      have := hfresh b hbm
      have := (h1 b hbm).1
      show block + header_size + sz + header_size ≤ b.1 ∨ b.1 + b.2 + header_size ≤
        block + header_size
      unfold header_size at *
      omega
    · show (m61_malloc t.st sz block).2.stat_store.nactive
        = ((block + header_size, sz) :: t.live).length % WORD
      rw [e3, h3]
      simp only [u64_add, WORD, List.length_cons]
      omega
    · show (m61_malloc t.st sz block).2.stat_store.active_size
        = live_bytes ((block + header_size, sz) :: t.live) % WORD
      rw [e4, h4]
      simp only [u64_add, WORD, live_bytes, List.map_cons, List.sum_cons]
      omega
    · show (m61_malloc t.st sz block).2.stat_store.ntotal = (t.ok_count + 1) % WORD
      rw [e5, h5]
      simp only [u64_add, WORD]
      omega
    · show (m61_malloc t.st sz block).2.stat_store.total_size = (t.ok_bytes + sz) % WORD
      rw [e6, h6]
      simp only [u64_add, WORD]
      omega
    · show ((block + header_size, sz) :: t.live).length ≤ t.ok_count + 1
      simp only [List.length_cons]
      omega
    · show live_bytes ((block + header_size, sz) :: t.live) ≤ t.ok_bytes + sz
      simp only [live_bytes, List.map_cons, List.sum_cons] at h8 ⊢
      omega

theorem record_eq_ok (t : Tracked) (r : Nat × State) (sz : Nat) (h : r.1 ≠ 0) :
    t.record r sz = { st := r.2, live := (r.1, sz) :: t.live, ok_count := t.ok_count + 1,
                      ok_bytes := t.ok_bytes + sz } := by
  rw [Tracked.record, if_pos h]

theorem record_eq_fail (t : Tracked) (r : Nat × State) (sz : Nat) (h : r.1 = 0) :
    t.record r sz = { t with st := r.2 } := by
  simp [Tracked.record, h]

/-- After a successful allocation, a write that stays inside the payload of the new block keeps the
invariant. -/
theorem inv_alloc_write (t : Tracked) (sz block : Nat) (m2 : Mem) (hi : t.inv) (hsz : sz < WORD)
    (hv : provider_ok t.live sz block) (hnz : (m61_malloc t.st sz block).1 ≠ 0)
    (hm2 : ∀ x, x < block + header_size ∨ block + header_size + sz ≤ x →
      m2 x = (m61_malloc t.st sz block).2.mem x) :
    Tracked.inv { st := { (m61_malloc t.st sz block).2 with mem := m2 },
                  live := ((m61_malloc t.st sz block).1, sz) :: t.live,
                  ok_count := t.ok_count + 1, ok_bytes := t.ok_bytes + sz } := by
  obtain ⟨hinv1, hfacts⟩ := inv_malloc t sz block hi hsz hv
  obtain ⟨hdata, hb, hfit, hfresh, hmem⟩ := hfacts hnz
  rw [record_eq_ok _ _ _ hnz] at hinv1
  refine inv_mem_update _ m2 hinv1 ?_
  intro b hbm x hx1 hx2
  apply hm2
  rcases List.mem_cons.mp hbm with hnew | hold
  · subst hnew
    left
    have : x < (m61_malloc t.st sz block).1 := hx2
    omega
  · have h1 := (hi.1 b hold).1
    have h2 := hfresh b hold
    unfold header_size at *
    omega

theorem inv_calloc (t : Tracked) (nmemb sz block : Nat) (hi : t.inv)
    (hv : provider_ok t.live (nmemb * sz % WORD) block) :
    (t.record (m61_calloc t.st nmemb sz block) (nmemb * sz % WORD)).inv := by
  have hsz : nmemb * sz % WORD < WORD := Nat.mod_lt _ (by unfold WORD; omega)
  by_cases hz : (m61_malloc t.st (nmemb * sz % WORD) block).1 = 0
  · have hc : m61_calloc t.st nmemb sz block = m61_malloc t.st (nmemb * sz % WORD) block := by
      simp [m61_calloc, hz]
    rw [hc]
    exact (inv_malloc t _ block hi hsz hv).1
  · have hc : m61_calloc t.st nmemb sz block
        = ((m61_malloc t.st (nmemb * sz % WORD) block).1,
           { (m61_malloc t.st (nmemb * sz % WORD) block).2 with
             mem := memset (m61_malloc t.st (nmemb * sz % WORD) block).2.mem
               (m61_malloc t.st (nmemb * sz % WORD) block).1 0 (nmemb * sz % WORD) }) := by
      simp [m61_calloc, hz]
    have hdata := ((inv_malloc t _ block hi hsz hv).2 hz).1
    rw [hc]
    simp only [Tracked.record, if_pos hz]
    apply inv_alloc_write t _ block _ hi hsz hv hz
    intro x hx
    unfold memset
    rw [if_neg]
    rw [hdata]
    omega

theorem inv_realloc (t : Tracked) (ptr sz block : Nat) (hi : t.inv) (hsz : sz < WORD)
    (hp : ptr = 0 ∨ is_live t.live ptr) (hv : sz = 0 ∨ provider_ok t.live sz block)
    (hcopy : ∀ b ∈ t.live, b.1 = ptr → sz = 0 ∨ sz = SIZE_MAX ∨ block = 0 ∨ b.2 ≤ sz) :
    Tracked.inv { (t.record (m61_realloc t.st ptr sz block) sz) with
                  live := release (t.record (m61_realloc t.st ptr sz block) sz).live ptr } := by
  by_cases hs0 : sz = 0
  · have he : m61_realloc t.st ptr sz block = (0, m61_free t.st ptr) := by
      simp [m61_realloc, hs0]
    rw [he, record_eq_fail _ _ _ rfl]
    exact inv_free t ptr hi hp
  have hv2 : provider_ok t.live sz block := hv.resolve_left hs0
  obtain ⟨hinv1, hfacts⟩ := inv_malloc t sz block hi hsz hv2
  by_cases hz : (m61_malloc t.st sz block).1 = 0
  · have he : m61_realloc t.st ptr sz block = (0, m61_free (m61_malloc t.st sz block).2 ptr) := by
      simp [m61_realloc, hs0, hz]
    rw [record_eq_fail _ _ _ hz] at hinv1
    rw [he, record_eq_fail _ _ _ rfl]
    exact inv_free _ ptr hinv1 hp
  obtain ⟨hdata, hb, hfit, hfresh, hmem⟩ := hfacts hz
  rw [record_eq_ok _ _ _ hz] at hinv1
  by_cases hp0 : ptr = 0
  · have he : m61_realloc t.st ptr sz block
        = ((m61_malloc t.st sz block).1, m61_free (m61_malloc t.st sz block).2 ptr) := by
      simp [m61_realloc, hs0, hp0]
    rw [he]
    simp only [Tracked.record, if_pos hz]
    exact inv_free _ ptr hinv1 (Or.inl hp0)
  · obtain ⟨b, hbl, hbp⟩ := hp.resolve_left hp0
    have he : m61_realloc t.st ptr sz block
        = ((m61_malloc t.st sz block).1,
           m61_free { (m61_malloc t.st sz block).2 with
                      mem := memcpy (m61_malloc t.st sz block).2.mem (m61_malloc t.st sz block).1
                        ptr (load64 (m61_malloc t.st sz block).2.mem (u64_sub ptr header_size)) }
             ptr) := by
      simp [m61_realloc, hs0, hp0, hz]
    obtain ⟨hlo, hhi, hload⟩ := hinv1.1 b (List.mem_cons_of_mem _ hbl)
    have hsub : u64_sub ptr header_size = b.1 - header_size := by
      rw [← hbp]
      simp only [u64_sub, header_size, WORD] at hlo hhi ⊢
      omega
    have hk : b.2 ≤ sz := by
      rcases hcopy b hbl hbp with h | h | h | h
      · exact absurd h hs0
      · simp only [SIZE_MAX, WORD, header_size] at h hfit
        omega
      · exact absurd h hb
      · exact h
    have hinv2 := inv_alloc_write t sz block
      (memcpy (m61_malloc t.st sz block).2.mem (m61_malloc t.st sz block).1 ptr
        (load64 (m61_malloc t.st sz block).2.mem (u64_sub ptr header_size)))
      hi hsz hv2 hz (by
        intro x hx
        have hload2 : load64 (m61_malloc t.st sz block).2.mem (b.1 - header_size) = b.2 := hload
        unfold memcpy
        rw [if_neg]
        rw [hsub, hload2, hdata]
        omega)
    rw [he]
    simp only [Tracked.record, if_pos hz]
    exact inv_free _ ptr hinv2 (Or.inr ⟨b, List.mem_cons_of_mem _ hbl, hbp⟩)

/-- Each contract-respecting event keeps the invariant. -/
theorem inv_exec (t : Tracked) (e : Event) (hi : t.inv) (hv : t.valid e) : (t.exec e).inv := by
  cases e with
  | call op =>
    cases op with
    | malloc sz block => exact (inv_malloc t sz block hi hv.1 hv.2).1
    | free ptr => exact inv_free t ptr hi hv
    | realloc ptr sz block => exact inv_realloc t ptr sz block hi hv.1 hv.2.1 hv.2.2.1 hv.2.2.2
    | calloc nmemb sz block => exact inv_calloc t nmemb sz block hi hv.2.2
  | poke addr val =>
    refine inv_mem_update t _ hi ?_
    intro b hb x hx1 hx2
    have := hv b hb
    rw [if_neg]
    omega

/-- The invariant holds after every contract-respecting run. -/
theorem inv_run (t : Tracked) (es : List Event) (hi : t.inv) (hv : t.valid_run es) :
    (t.run es).inv := by
  induction es generalizing t with
  | nil => exact hi
  | cons e es ih => exact ih (t.exec e) (inv_exec t e hi hv.1) hv.2

/-! ## m61_malloc -/

/-- C1: when sz is not the maximum size_t and base_malloc returns a non-NULL block, m61_malloc
returns block + header_size (pointer arithmetic; the plain sum when it does not leave the address
space), the header of the block holds sz, ntotal and nactive grow by one and total_size and
active_size by sz in unsigned 64-bit arithmetic, and nfail and fail_size are unchanged. -/
theorem m61_malloc_success (s : State) (sz block : Nat) (hsz : sz < WORD)
    (hmax : sz ≠ SIZE_MAX) (hblock : block ≠ 0) :
    (m61_malloc s sz block).1 = (block + header_size) % 2 ^ 64 ∧
    (block + header_size < 2 ^ 64 → (m61_malloc s sz block).1 = block + header_size) ∧
    load64 (m61_malloc s sz block).2.mem block = sz ∧
    (m61_malloc s sz block).2.stat_store.ntotal = (s.stat_store.ntotal + 1) % 2 ^ 64 ∧
    (m61_malloc s sz block).2.stat_store.nactive = (s.stat_store.nactive + 1) % 2 ^ 64 ∧
    (m61_malloc s sz block).2.stat_store.total_size = (s.stat_store.total_size + sz) % 2 ^ 64 ∧
    (m61_malloc s sz block).2.stat_store.active_size = (s.stat_store.active_size + sz) % 2 ^ 64 ∧
    (m61_malloc s sz block).2.stat_store.nfail = s.stat_store.nfail ∧
    (m61_malloc s sz block).2.stat_store.fail_size = s.stat_store.fail_size := by
  have hl := load64_store64_same s.mem block sz hsz
  simp only [m61_malloc, if_neg hmax, if_neg hblock, hl, u64_add, WORD]
  refine ⟨trivial, ?_, trivial, trivial, trivial, trivial, trivial, trivial, trivial⟩
  intro h
  exact Nat.mod_eq_of_lt h

/-- Witness for C1: a 10-byte request answered with the block at 4096, from the initial state. -/
theorem m61_malloc_success_witness :
    (m61_malloc (State.init zero_mem) 10 4096).1 = 4104 ∧
    (m61_malloc (State.init zero_mem) 10 4096).2.stat_store.active_size = 10 := by
  have h := m61_malloc_success (State.init zero_mem) 10 4096 (by decide) (by decide) (by decide)
  refine ⟨h.2.1 (by decide), ?_⟩
  rw [h.2.2.2.2.2.2.1]
  decide

/-- C2: when sz is the maximum size_t or base_malloc returns NULL, m61_malloc returns NULL, nfail
grows by one and fail_size by sz in unsigned 64-bit arithmetic, the other six statistics are
unchanged, and in the maximum case no provider call is logged. -/
theorem m61_malloc_failure (s : State) (sz block : Nat) (h : sz = SIZE_MAX ∨ block = 0) :
    (m61_malloc s sz block).1 = 0 ∧
    (m61_malloc s sz block).2.stat_store.nfail = (s.stat_store.nfail + 1) % 2 ^ 64 ∧
    (m61_malloc s sz block).2.stat_store.fail_size = (s.stat_store.fail_size + sz) % 2 ^ 64 ∧
    (m61_malloc s sz block).2.stat_store.nactive = s.stat_store.nactive ∧
    (m61_malloc s sz block).2.stat_store.active_size = s.stat_store.active_size ∧
    (m61_malloc s sz block).2.stat_store.ntotal = s.stat_store.ntotal ∧
    (m61_malloc s sz block).2.stat_store.total_size = s.stat_store.total_size ∧
    (m61_malloc s sz block).2.stat_store.heap_min = s.stat_store.heap_min ∧
    (m61_malloc s sz block).2.stat_store.heap_max = s.stat_store.heap_max ∧
    (sz = SIZE_MAX → (m61_malloc s sz block).2.calls = s.calls) := by
  by_cases hmax : sz = SIZE_MAX
  · simp [m61_malloc, hmax, u64_add, WORD]
  · have hb : block = 0 := h.resolve_left hmax
    simp [m61_malloc, hmax, hb, u64_add, WORD]

/-- Witness for C2: the maximum request from the initial state. -/
theorem m61_malloc_failure_witness :
    (m61_malloc (State.init zero_mem) SIZE_MAX 4096).2.stat_store.fail_size = 2 ^ 64 - 1 ∧
    (m61_malloc (State.init zero_mem) SIZE_MAX 4096).2.calls = [] := by
  have h := m61_malloc_failure (State.init zero_mem) SIZE_MAX 4096 (Or.inl rfl)
  refine ⟨?_, h.2.2.2.2.2.2.2.2.2 rfl⟩
  rw [h.2.2.1]
  decide

/-- C3 (evaluation at the failing input): for sz = 2^64 - 2, which is not the maximum size_t,
m61_malloc asks base_malloc for 6 bytes, not for header_size + sz, and when base_malloc answers
with a block it reports success for a payload of 2^64 - 2 bytes. -/
theorem m61_malloc_request_wraps :
    (m61_malloc (State.init zero_mem) (2 ^ 64 - 2) 4096).2.calls
      = [ProviderCall.base_malloc 6 4096] ∧
    header_size + (2 ^ 64 - 2) ≠ 6 ∧
    (m61_malloc (State.init zero_mem) (2 ^ 64 - 2) 4096).1 = 4104 ∧
    (m61_malloc (State.init zero_mem) (2 ^ 64 - 2) 4096).2.stat_store.active_size = 2 ^ 64 - 2 := by
  have hl := load64_store64_same zero_mem 4096 (2 ^ 64 - 2) (by decide)
  have hmax : (2 ^ 64 - 2 : Nat) ≠ SIZE_MAX := by decide
  simp only [m61_malloc, if_neg hmax, State.init, hl]
  decide

/-! ## m61_free -/

/-- C5: for an address whose preceding header holds k, m61_free takes one off nactive and k off
active_size in unsigned 64-bit arithmetic (the new value is the 64-bit word that, increased by 1
or by k, is congruent to the old one; it is the plain difference when nactive is at least 1 and
active_size at least k) and leaves ntotal, total_size, nfail, fail_size, heap_min and heap_max
unchanged. -/
theorem m61_free_live (s : State) (ptr k : Nat) (hlo : header_size ≤ ptr) (hhi : ptr < WORD)
    (hk : load64 s.mem (ptr - header_size) = k) :
    (m61_free s ptr).stat_store.nactive < 2 ^ 64 ∧
    ((m61_free s ptr).stat_store.nactive + 1) % 2 ^ 64 = s.stat_store.nactive % 2 ^ 64 ∧
    (1 ≤ s.stat_store.nactive → s.stat_store.nactive < 2 ^ 64 →
      (m61_free s ptr).stat_store.nactive = s.stat_store.nactive - 1) ∧
    (m61_free s ptr).stat_store.active_size < 2 ^ 64 ∧
    ((m61_free s ptr).stat_store.active_size + k) % 2 ^ 64 = s.stat_store.active_size % 2 ^ 64 ∧
    (k ≤ s.stat_store.active_size → s.stat_store.active_size < 2 ^ 64 →
      (m61_free s ptr).stat_store.active_size = s.stat_store.active_size - k) ∧
    (m61_free s ptr).stat_store.ntotal = s.stat_store.ntotal ∧
    (m61_free s ptr).stat_store.total_size = s.stat_store.total_size ∧
    (m61_free s ptr).stat_store.nfail = s.stat_store.nfail ∧
    (m61_free s ptr).stat_store.fail_size = s.stat_store.fail_size ∧
    (m61_free s ptr).stat_store.heap_min = s.stat_store.heap_min ∧
    (m61_free s ptr).stat_store.heap_max = s.stat_store.heap_max := by
  have hp : ptr ≠ 0 := by unfold header_size at hlo; omega
  have ha : u64_sub ptr header_size = ptr - header_size := by
    simp only [u64_sub, header_size, WORD] at hlo hhi ⊢
    omega
  have hklt : k < WORD := hk ▸ load64_lt s.mem (ptr - header_size)
  simp only [m61_free, if_neg hp, ha, hk]
  simp only [u64_sub, WORD] at hklt ⊢
  refine ⟨?_, ?_, ?_, ?_, ?_, ?_, trivial, trivial, trivial, trivial, trivial, trivial⟩
  · omega
  · omega
  · intro h1 h2
    omega
  · omega
  · omega
  · intro h1 h2
    omega

/-- Witness for C5: the block allocated with 10 bytes at 4096 is released through 4104. -/
theorem m61_free_live_witness :
    (m61_free (m61_malloc (State.init zero_mem) 10 4096).2 4104).stat_store.active_size = 0 := by
  have hm : load64 (m61_malloc (State.init zero_mem) 10 4096).2.mem (4104 - header_size) = 10 := by
    decide
  have h := m61_free_live (m61_malloc (State.init zero_mem) 10 4096).2 4104 10 (by decide)
    (by decide) hm
  exact h.2.2.2.2.2.1 (by decide) (by decide)

/-- C6 (evaluation at the failing input): after m61_malloc(16) on the provider block 4096 returns
4104, m61_free(4104) calls base_free with 4104, not with the block address 4096. -/
theorem m61_free_passes_payload_address :
    (m61_malloc (State.init zero_mem) 16 4096).1 = 4104 ∧
    (m61_free (m61_malloc (State.init zero_mem) 16 4096).2 4104).calls
      = [ProviderCall.base_malloc 24 4096, ProviderCall.base_free 4104] := by
  have hmax : (16 : Nat) ≠ SIZE_MAX := by decide
  simp only [m61_malloc, m61_free, if_neg hmax, State.init]
  decide

/-- C7: m61_free(NULL) returns the state it was given: the eight statistics, the memory and the
log of provider calls are all unchanged. -/
theorem m61_free_null (s : State) : m61_free s 0 = s := by
  simp [m61_free]

/-- C8: when m61_malloc(n) returns a non-NULL address, releasing that address at once restores
nactive and active_size, and leaves ntotal one higher and total_size n higher (unsigned 64-bit
arithmetic) than before the allocation. -/
theorem malloc_free_round_trip (s : State) (n block : Nat) (hn : n < WORD) (hblock : block < WORD)
    (hna : s.stat_store.nactive < WORD) (hsa : s.stat_store.active_size < WORD)
    (hok : (m61_malloc s n block).1 ≠ 0) :
    (m61_free (m61_malloc s n block).2 (m61_malloc s n block).1).stat_store.nactive
      = s.stat_store.nactive ∧
    (m61_free (m61_malloc s n block).2 (m61_malloc s n block).1).stat_store.active_size
      = s.stat_store.active_size ∧
    (m61_free (m61_malloc s n block).2 (m61_malloc s n block).1).stat_store.ntotal
      = (s.stat_store.ntotal + 1) % 2 ^ 64 ∧
    (m61_free (m61_malloc s n block).2 (m61_malloc s n block).1).stat_store.total_size
      = (s.stat_store.total_size + n) % 2 ^ 64 := by
  have hmax : n ≠ SIZE_MAX := by
    intro h
    simp [m61_malloc, h] at hok
  have hb : block ≠ 0 := by
    intro h
    simp [m61_malloc, hmax, h] at hok
  have hl := load64_store64_same s.mem block n hn
  have hr : (m61_malloc s n block).1 = u64_add block header_size := by
    simp only [m61_malloc, if_neg hmax, if_neg hb]
  rw [hr] at hok ⊢
  have hback := u64_sub_add_cancel block header_size hblock
  simp only [m61_malloc, m61_free, if_neg hmax, if_neg hb, if_neg hok, hback, hl]
  refine ⟨u64_sub_add_cancel _ 1 hna, u64_sub_add_cancel _ n hsa, ?_, ?_⟩ <;>
    simp [u64_add, WORD]

/-- Witness for C8: 10 bytes on the block at 4096, from the initial state. -/
theorem malloc_free_round_trip_witness :
    (m61_free (m61_malloc (State.init zero_mem) 10 4096).2
      (m61_malloc (State.init zero_mem) 10 4096).1).stat_store.active_size = 0 ∧
    (m61_free (m61_malloc (State.init zero_mem) 10 4096).2
      (m61_malloc (State.init zero_mem) 10 4096).1).stat_store.total_size = 10 := by
  have h := malloc_free_round_trip (State.init zero_mem) 10 4096 (by decide) (by decide)
    (by decide) (by decide) (by decide)
  exact ⟨h.2.1, h.2.2.2⟩


/-! ## Sequences of calls -/

/-- C4 (evaluation at the failing input): two calls m61_malloc(2^64 - 2), each answered by the
provider with a block for the 6 bytes it was asked for, leave two live allocations of 2^64 - 2
bytes each, whose sizes sum to 2^65 - 4, while active_size holds 2^64 - 4. -/
theorem active_size_not_exact :
    ((Tracked.init zero_mem).run
      [Event.call (Op.malloc (2 ^ 64 - 2) 16), Event.call (Op.malloc (2 ^ 64 - 2) 32)]).live
      = [(40, 2 ^ 64 - 2), (24, 2 ^ 64 - 2)] ∧
    live_bytes ((Tracked.init zero_mem).run
      [Event.call (Op.malloc (2 ^ 64 - 2) 16), Event.call (Op.malloc (2 ^ 64 - 2) 32)]).live
      = 2 ^ 65 - 4 ∧
    ((Tracked.init zero_mem).run
      [Event.call (Op.malloc (2 ^ 64 - 2) 16),
       Event.call (Op.malloc (2 ^ 64 - 2) 32)]).st.stat_store.active_size = 2 ^ 64 - 4 ∧
    ((Tracked.init zero_mem).run
      [Event.call (Op.malloc (2 ^ 64 - 2) 16),
       Event.call (Op.malloc (2 ^ 64 - 2) 32)]).st.stat_store.nactive = 2 ∧
    ((Tracked.init zero_mem).run
      [Event.call (Op.malloc (2 ^ 64 - 2) 16), Event.call (Op.malloc (2 ^ 64 - 2) 32)]).st.calls
      = [ProviderCall.base_malloc 6 16, ProviderCall.base_malloc 6 32] := by
  decide

/-- C9 (counterexample): from the initial state, the second of two calls m61_malloc(SIZE_MAX)
leaves fail_size at 2^64 - 2, below the 2^64 - 1 it held after the first. -/
theorem fail_size_not_monotone :
    (Op.run (State.init zero_mem) (Op.malloc SIZE_MAX 0)).2.stat_store.fail_size = 2 ^ 64 - 1 ∧
    (Op.run (Op.run (State.init zero_mem) (Op.malloc SIZE_MAX 0)).2
      (Op.malloc SIZE_MAX 0)).2.stat_store.fail_size = 2 ^ 64 - 2 ∧
    ¬ ((Op.run (State.init zero_mem) (Op.malloc SIZE_MAX 0)).2.stat_store.fail_size ≤
      (Op.run (Op.run (State.init zero_mem) (Op.malloc SIZE_MAX 0)).2
        (Op.malloc SIZE_MAX 0)).2.stat_store.fail_size) := by
  decide

/-- The four cumulative statistics after m61_malloc: a failure adds to nfail and fail_size only, a
success to ntotal and total_size only. -/
theorem malloc_cumulative (s : State) (sz block : Nat) :
    ((m61_malloc s sz block).2.stat_store.ntotal = s.stat_store.ntotal ∧
      (m61_malloc s sz block).2.stat_store.total_size = s.stat_store.total_size ∧
      (m61_malloc s sz block).2.stat_store.nfail = u64_add s.stat_store.nfail 1 ∧
      (m61_malloc s sz block).2.stat_store.fail_size = u64_add s.stat_store.fail_size sz) ∨
    ((m61_malloc s sz block).2.stat_store.ntotal = u64_add s.stat_store.ntotal 1 ∧
      (m61_malloc s sz block).2.stat_store.total_size = u64_add s.stat_store.total_size sz ∧
      (m61_malloc s sz block).2.stat_store.nfail = s.stat_store.nfail ∧
      (m61_malloc s sz block).2.stat_store.fail_size = s.stat_store.fail_size) := by
  by_cases hmax : sz = SIZE_MAX
  · left
    simp [m61_malloc, hmax]
  by_cases hb : block = 0
  · left
    simp [m61_malloc, hmax, hb]
  · right
    have hl := load64_store64_mod s.mem block sz
    simp only [m61_malloc, if_neg hmax, if_neg hb, hl, u64_add_mod]
    exact ⟨trivial, trivial, trivial, trivial⟩

/-- The four cumulative statistics are not touched by m61_free. -/
theorem free_cumulative (s : State) (ptr : Nat) :
    (m61_free s ptr).stat_store.ntotal = s.stat_store.ntotal ∧
    (m61_free s ptr).stat_store.total_size = s.stat_store.total_size ∧
    (m61_free s ptr).stat_store.nfail = s.stat_store.nfail ∧
    (m61_free s ptr).stat_store.fail_size = s.stat_store.fail_size := by
  by_cases hp : ptr = 0
  · simp [m61_free, hp]
  · simp only [m61_free, if_neg hp]
    exact ⟨trivial, trivial, trivial, trivial⟩

/-- Every call either leaves the four cumulative statistics alone, or adds one failure of
op.request bytes, or adds one success of op.request bytes. -/
theorem op_cumulative (s : State) (op : Op) :
    ((op.run s).2.stat_store.ntotal = s.stat_store.ntotal ∨
      (op.run s).2.stat_store.ntotal = u64_add s.stat_store.ntotal 1) ∧
    ((op.run s).2.stat_store.total_size = s.stat_store.total_size ∨
      (op.run s).2.stat_store.total_size = u64_add s.stat_store.total_size op.request) ∧
    ((op.run s).2.stat_store.nfail = s.stat_store.nfail ∨
      (op.run s).2.stat_store.nfail = u64_add s.stat_store.nfail 1) ∧
    ((op.run s).2.stat_store.fail_size = s.stat_store.fail_size ∨
      (op.run s).2.stat_store.fail_size = u64_add s.stat_store.fail_size op.request) := by
  cases op with
  | malloc sz block =>
    rcases malloc_cumulative s sz block with ⟨a, b, c, d⟩ | ⟨a, b, c, d⟩
    · exact ⟨Or.inl a, Or.inl b, Or.inr c, Or.inr d⟩
    · exact ⟨Or.inr a, Or.inr b, Or.inl c, Or.inl d⟩
  | free ptr =>
    obtain ⟨a, b, c, d⟩ := free_cumulative s ptr
    exact ⟨Or.inl a, Or.inl b, Or.inl c, Or.inl d⟩
  | realloc ptr sz block =>
    by_cases hs0 : sz = 0
    · have he : (Op.realloc ptr sz block).run s = (0, m61_free s ptr) := by
        simp [Op.run, m61_realloc, hs0]
      obtain ⟨a, b, c, d⟩ := free_cumulative s ptr
      rw [he]
      exact ⟨Or.inl a, Or.inl b, Or.inl c, Or.inl d⟩
    · have he : ∃ m2 : Mem, ((Op.realloc ptr sz block).run s).2
          = m61_free { (m61_malloc s sz block).2 with mem := m2 } ptr := by
        by_cases hc : ptr ≠ 0 ∧ (m61_malloc s sz block).1 ≠ 0
        · exact ⟨memcpy (m61_malloc s sz block).2.mem (m61_malloc s sz block).1 ptr
              (load64 (m61_malloc s sz block).2.mem (u64_sub ptr header_size)),
            by simp only [Op.run, m61_realloc, if_pos hs0, if_pos hc]⟩
        · exact ⟨(m61_malloc s sz block).2.mem,
            by simp only [Op.run, m61_realloc, if_pos hs0, if_neg hc]⟩
      obtain ⟨m2, he⟩ := he
      obtain ⟨a, b, c, d⟩ := free_cumulative { (m61_malloc s sz block).2 with mem := m2 } ptr
      rw [he, a, b, c, d]
      rcases malloc_cumulative s sz block with ⟨a, b, c, d⟩ | ⟨a, b, c, d⟩
      · exact ⟨Or.inl a, Or.inl b, Or.inr c, Or.inr d⟩
      · exact ⟨Or.inr a, Or.inr b, Or.inl c, Or.inl d⟩
  | calloc nmemb sz block =>
    have he : ∃ m2 : Mem, ((Op.calloc nmemb sz block).run s).2
        = { (m61_malloc s (nmemb * sz % WORD) block).2 with mem := m2 } := by
      by_cases hc : (m61_malloc s (nmemb * sz % WORD) block).1 ≠ 0
      · exact ⟨memset (m61_malloc s (nmemb * sz % WORD) block).2.mem
            (m61_malloc s (nmemb * sz % WORD) block).1 0 (nmemb * sz % WORD),
          by simp only [Op.run, m61_calloc, if_pos hc]⟩
      · exact ⟨(m61_malloc s (nmemb * sz % WORD) block).2.mem,
          by simp only [Op.run, m61_calloc, if_neg hc]⟩
    obtain ⟨m2, he⟩ := he
    rw [he]
    rcases malloc_cumulative s (nmemb * sz % WORD) block with ⟨a, b, c, d⟩ | ⟨a, b, c, d⟩
    · exact ⟨Or.inl a, Or.inl b, Or.inr c, Or.inr d⟩
    · exact ⟨Or.inr a, Or.inr b, Or.inl c, Or.inl d⟩

/-- C9 (amended): after any single call, each of ntotal, total_size, nfail and fail_size is at
least its value before the call, provided the addition the call may make to that field does not
pass 2^64 - 1 (one for the two counts, the requested byte count for the two sizes). -/
theorem cumulative_monotone (s : State) (op : Op) :
    (s.stat_store.ntotal + 1 < 2 ^ 64 →
      s.stat_store.ntotal ≤ (op.run s).2.stat_store.ntotal) ∧
    (s.stat_store.total_size + op.request < 2 ^ 64 →
      s.stat_store.total_size ≤ (op.run s).2.stat_store.total_size) ∧
    (s.stat_store.nfail + 1 < 2 ^ 64 →
      s.stat_store.nfail ≤ (op.run s).2.stat_store.nfail) ∧
    (s.stat_store.fail_size + op.request < 2 ^ 64 →
      s.stat_store.fail_size ≤ (op.run s).2.stat_store.fail_size) := by
  obtain ⟨a, b, c, d⟩ := op_cumulative s op
  simp only [u64_add, WORD] at a b c d
  refine ⟨fun h => ?_, fun h => ?_, fun h => ?_, fun h => ?_⟩
  · rcases a with a | a <;> rw [a]
    omega
  · rcases b with b | b <;> rw [b]
    omega
  · rcases c with c | c <;> rw [c]
    omega
  · rcases d with d | d <;> rw [d]
    omega

/-- Witness for C9 (amended): a refused 10-byte request from the initial state raises nfail and
fail_size and keeps ntotal and total_size. -/
theorem cumulative_monotone_witness :
    (0 : Nat) ≤ (Op.run (State.init zero_mem) (Op.malloc 10 0)).2.stat_store.ntotal ∧
    (0 : Nat) ≤ (Op.run (State.init zero_mem) (Op.malloc 10 0)).2.stat_store.total_size ∧
    (0 : Nat) ≤ (Op.run (State.init zero_mem) (Op.malloc 10 0)).2.stat_store.nfail ∧
    (0 : Nat) ≤ (Op.run (State.init zero_mem) (Op.malloc 10 0)).2.stat_store.fail_size ∧
    (Op.run (State.init zero_mem) (Op.malloc 10 0)).2.stat_store.fail_size = 10 :=
  ⟨(cumulative_monotone (State.init zero_mem) (Op.malloc 10 0)).1 (by decide),
   (cumulative_monotone (State.init zero_mem) (Op.malloc 10 0)).2.1 (by decide),
   (cumulative_monotone (State.init zero_mem) (Op.malloc 10 0)).2.2.1 (by decide),
   (cumulative_monotone (State.init zero_mem) (Op.malloc 10 0)).2.2.2 (by decide),
   by decide⟩

/-- C10 (counterexample): a contract-respecting run from the initial state (allocate 2^63 bytes,
release them, allocate 2^63 bytes again, the provider answering each time with a block at 16)
ends with active_size = 2^63 and total_size = 0. -/
theorem active_size_above_total_size :
    (Tracked.init zero_mem).valid_run
      [Event.call (Op.malloc (2 ^ 63) 16), Event.call (Op.free 24),
       Event.call (Op.malloc (2 ^ 63) 16)] ∧
    ((Tracked.init zero_mem).run
      [Event.call (Op.malloc (2 ^ 63) 16), Event.call (Op.free 24),
       Event.call (Op.malloc (2 ^ 63) 16)]).st.stat_store.active_size = 2 ^ 63 ∧
    ((Tracked.init zero_mem).run
      [Event.call (Op.malloc (2 ^ 63) 16), Event.call (Op.free 24),
       Event.call (Op.malloc (2 ^ 63) 16)]).st.stat_store.total_size = 0 ∧
    ¬ (((Tracked.init zero_mem).run
      [Event.call (Op.malloc (2 ^ 63) 16), Event.call (Op.free 24),
       Event.call (Op.malloc (2 ^ 63) 16)]).st.stat_store.active_size ≤
      ((Tracked.init zero_mem).run
      [Event.call (Op.malloc (2 ^ 63) 16), Event.call (Op.free 24),
       Event.call (Op.malloc (2 ^ 63) 16)]).st.stat_store.total_size) := by
  refine ⟨?_, by decide, by decide, by decide⟩
  simp [Tracked.valid_run, Tracked.valid, Tracked.exec, Tracked.record, Tracked.init, State.init,
    m61_malloc, provider_ok, fresh, is_live, release, SIZE_MAX, WORD, header_size, u64_add]

/-- C10 (amended): after every contract-respecting run from the initial state in which the number
and the byte total of the successful allocations are both below 2^64 (neither ntotal nor
total_size has wrapped), nactive is at most ntotal and active_size at most total_size. -/
theorem active_le_total (m : Mem) (es : List Event) (hv : (Tracked.init m).valid_run es)
    (hc : ((Tracked.init m).run es).ok_count < 2 ^ 64)
    (hb : ((Tracked.init m).run es).ok_bytes < 2 ^ 64) :
    ((Tracked.init m).run es).st.stat_store.nactive
      ≤ ((Tracked.init m).run es).st.stat_store.ntotal ∧
    ((Tracked.init m).run es).st.stat_store.active_size
      ≤ ((Tracked.init m).run es).st.stat_store.total_size := by
  obtain ⟨_, _, h3, h4, h5, h6, h7, h8⟩ := inv_run (Tracked.init m) es (inv_init m) hv
  rw [h3, h4, h5, h6]
  unfold WORD
  constructor
  · have := Nat.mod_le ((Tracked.init m).run es).live.length (2 ^ 64)
    rw [Nat.mod_eq_of_lt hc]
    omega
  · have := Nat.mod_le (live_bytes ((Tracked.init m).run es).live) (2 ^ 64)
    rw [Nat.mod_eq_of_lt hb]
    omega

/-- Witness for C10 (amended): the sample run respects the contracts and ends with one live block
of 20 bytes out of three allocations of 62 bytes in all. -/
theorem active_le_total_witness :
    ((Tracked.init zero_mem).run sample_run).st.stat_store.nactive
      ≤ ((Tracked.init zero_mem).run sample_run).st.stat_store.ntotal ∧
    ((Tracked.init zero_mem).run sample_run).st.stat_store.active_size
      ≤ ((Tracked.init zero_mem).run sample_run).st.stat_store.total_size ∧
    ((Tracked.init zero_mem).run sample_run).st.stat_store.active_size = 20 ∧
    ((Tracked.init zero_mem).run sample_run).st.stat_store.total_size = 62 := by
  have hv : (Tracked.init zero_mem).valid_run sample_run := by
    simp [sample_run, Tracked.valid_run, Tracked.valid, Tracked.exec, Tracked.record,
      Tracked.init, State.init, m61_malloc, m61_calloc, m61_realloc, provider_ok, fresh, is_live,
      release, SIZE_MAX, WORD, header_size, u64_add]
  have h := active_le_total zero_mem sample_run hv (by decide) (by decide)
  exact ⟨h.1, h.2, by decide, by decide⟩

/-! ## m61_realloc -/

theorem malloc_nonnull (s : State) (sz block : Nat) (h : (m61_malloc s sz block).1 ≠ 0) :
    sz ≠ SIZE_MAX ∧ block ≠ 0 := by
  constructor
  · intro hmax
    simp [m61_malloc, hmax] at h
  · intro hb
    by_cases hmax : sz = SIZE_MAX
    · simp [m61_malloc, hmax] at h
    · simp [m61_malloc, hmax, hb] at h

theorem malloc_ok_mem (s : State) (sz block : Nat) (hmax : sz ≠ SIZE_MAX) (hb : block ≠ 0) :
    (m61_malloc s sz block).1 = u64_add block header_size ∧
    (m61_malloc s sz block).2.mem = store64 s.mem block sz := by
  simp only [m61_malloc, if_neg hmax, if_neg hb]
  exact ⟨trivial, trivial⟩

/-- C13: m61_realloc(ptr, 0) returns NULL and leaves exactly the state m61_free(ptr) leaves
(statistics, memory and log of provider calls), for every ptr; m61_malloc is not called, so the
answer of the provider plays no part. -/
theorem m61_realloc_zero (s : State) (ptr block : Nat) :
    m61_realloc s ptr 0 block = (0, m61_free s ptr) := by
  simp [m61_realloc]

/-- C14 (counterexample): from the initial state m61_realloc(NULL, 0) returns NULL, counts no
allocation and does not call the provider, while m61_malloc(0), answered with the block at 4096,
returns 4104, counts one allocation and has called base_malloc(8). -/
theorem m61_realloc_null_zero_differs :
    (m61_realloc (State.init zero_mem) 0 0 4096).1 = 0 ∧
    (m61_realloc (State.init zero_mem) 0 0 4096).2.stat_store.ntotal = 0 ∧
    (m61_realloc (State.init zero_mem) 0 0 4096).2.calls = [] ∧
    (m61_malloc (State.init zero_mem) 0 4096).1 = 4104 ∧
    (m61_malloc (State.init zero_mem) 0 4096).2.stat_store.ntotal = 1 ∧
    (m61_malloc (State.init zero_mem) 0 4096).2.calls = [ProviderCall.base_malloc 8 4096] := by
  decide

/-- C14 (amended): for every nonzero sz, m61_realloc(NULL, sz) returns what m61_malloc(sz) returns
and leaves the same state (statistics, heap bounds, memory and log of provider calls). -/
theorem m61_realloc_null (s : State) (sz block : Nat) (hsz : sz ≠ 0) :
    m61_realloc s 0 sz block = m61_malloc s sz block := by
  simp [m61_realloc, hsz, m61_free]

/-- Witness for C14 (amended): a 10-byte request on the block at 4096. -/
theorem m61_realloc_null_witness :
    (m61_realloc (State.init zero_mem) 0 10 4096).1 = 4104 := by
  rw [m61_realloc_null (State.init zero_mem) 10 4096 (by decide)]
  decide

/-- C18: m61_getstatistics writes the eight fields of stat_store into the record it is given,
whatever that record held, and leaves the state unchanged. -/
theorem m61_getstatistics_copies (s : State) (stats : m61_statistics) :
    (m61_getstatistics s stats).1.nactive = s.stat_store.nactive ∧
    (m61_getstatistics s stats).1.active_size = s.stat_store.active_size ∧
    (m61_getstatistics s stats).1.ntotal = s.stat_store.ntotal ∧
    (m61_getstatistics s stats).1.total_size = s.stat_store.total_size ∧
    (m61_getstatistics s stats).1.nfail = s.stat_store.nfail ∧
    (m61_getstatistics s stats).1.fail_size = s.stat_store.fail_size ∧
    (m61_getstatistics s stats).1.heap_min = s.stat_store.heap_min ∧
    (m61_getstatistics s stats).1.heap_max = s.stat_store.heap_max ∧
    (m61_getstatistics s stats).2 = s := by
  simp [m61_getstatistics]

/-- C12: when ptr is an address whose preceding header holds k, sz is nonzero and the allocation
fails (sz is the maximum size_t or base_malloc returns NULL), m61_realloc returns NULL and still
releases ptr: base_free(ptr) is the last provider call, nactive goes down by one and active_size
by k (unsigned 64-bit arithmetic, the plain differences when there is no underflow), nfail grows
by one and fail_size by sz, and ntotal and total_size are unchanged. -/
theorem m61_realloc_failure (s : State) (ptr k sz block : Nat) (hlo : header_size ≤ ptr)
    (hhi : ptr < WORD) (hk : load64 s.mem (ptr - header_size) = k) (hsz : sz ≠ 0)
    (hfail : sz = SIZE_MAX ∨ block = 0) :
    (m61_realloc s ptr sz block).1 = 0 ∧
    (m61_realloc s ptr sz block).2.calls
      = (m61_malloc s sz block).2.calls ++ [ProviderCall.base_free ptr] ∧
    (m61_realloc s ptr sz block).2.stat_store.nactive < 2 ^ 64 ∧
    ((m61_realloc s ptr sz block).2.stat_store.nactive + 1) % 2 ^ 64
      = s.stat_store.nactive % 2 ^ 64 ∧
    (1 ≤ s.stat_store.nactive → s.stat_store.nactive < 2 ^ 64 →
      (m61_realloc s ptr sz block).2.stat_store.nactive = s.stat_store.nactive - 1) ∧
    (m61_realloc s ptr sz block).2.stat_store.active_size < 2 ^ 64 ∧
    ((m61_realloc s ptr sz block).2.stat_store.active_size + k) % 2 ^ 64
      = s.stat_store.active_size % 2 ^ 64 ∧
    (k ≤ s.stat_store.active_size → s.stat_store.active_size < 2 ^ 64 →
      (m61_realloc s ptr sz block).2.stat_store.active_size = s.stat_store.active_size - k) ∧
    (m61_realloc s ptr sz block).2.stat_store.nfail = (s.stat_store.nfail + 1) % 2 ^ 64 ∧
    (m61_realloc s ptr sz block).2.stat_store.fail_size
      = (s.stat_store.fail_size + sz) % 2 ^ 64 ∧
    (m61_realloc s ptr sz block).2.stat_store.ntotal = s.stat_store.ntotal ∧
    (m61_realloc s ptr sz block).2.stat_store.total_size = s.stat_store.total_size := by
  have hp : ptr ≠ 0 := by unfold header_size at hlo; omega
  have ha : u64_sub ptr header_size = ptr - header_size := by
    simp only [u64_sub, header_size, WORD] at hlo hhi ⊢
    omega
  have hklt : k < WORD := hk ▸ load64_lt s.mem (ptr - header_size)
  obtain ⟨e1, e2, e3, e4, e5, e6⟩ := malloc_fail_eq s sz block hfail
  have hf : (m61_malloc s sz block).2.stat_store.nfail = u64_add s.stat_store.nfail 1 ∧
      (m61_malloc s sz block).2.stat_store.fail_size = u64_add s.stat_store.fail_size sz := by
    by_cases hmax : sz = SIZE_MAX
    · simp [m61_malloc, hmax]
    · have hb : block = 0 := hfail.resolve_left hmax
      simp [m61_malloc, hmax, hb]
  have he : m61_realloc s ptr sz block = (0, m61_free (m61_malloc s sz block).2 ptr) := by
    simp [m61_realloc, hsz, e1]
  rw [he]
  simp only [m61_free, if_neg hp, ha, e2, hk, e3, e4, e5, e6, hf.1, hf.2]
  simp only [u64_sub, u64_add, WORD] at hklt ⊢
  refine ⟨trivial, trivial, ?_, ?_, ?_, ?_, ?_, ?_, trivial, trivial, trivial, trivial⟩
  · omega
  · omega
  · intro h1 h2
    omega
  · omega
  · omega
  · intro h1 h2
    omega

/-- Witness for C12: the 10-byte block at 4104 is resized to 20 bytes and the provider refuses. -/
theorem m61_realloc_failure_witness :
    (m61_realloc (m61_malloc (State.init zero_mem) 10 4096).2 4104 20 0).1 = 0 ∧
    (m61_realloc (m61_malloc (State.init zero_mem) 10 4096).2 4104 20 0).2.stat_store.active_size
      = 0 := by
  have hm : load64 (m61_malloc (State.init zero_mem) 10 4096).2.mem (4104 - header_size) = 10 := by
    decide
  have h := m61_realloc_failure (m61_malloc (State.init zero_mem) 10 4096).2 4104 10 20 0
    (by decide) (by decide) hm (by decide) (Or.inr rfl)
  exact ⟨h.1, h.2.2.2.2.2.2.2.1 (by decide) (by decide)⟩

/-! ## m61_calloc -/

/-- C15: m61_calloc(nmemb, sz) returns what m61_malloc returns for the size_t product nmemb * sz
(the plain product whenever it is below 2^64) and leaves the same statistics and the same log of
provider calls; when the result is not NULL, each of the bytes of the payload, as many as that
product, reads zero. -/
theorem m61_calloc_zeroed (s : State) (nmemb sz block : Nat) :
    (m61_calloc s nmemb sz block).1 = (m61_malloc s (nmemb * sz % 2 ^ 64) block).1 ∧
    (m61_calloc s nmemb sz block).2.stat_store
      = (m61_malloc s (nmemb * sz % 2 ^ 64) block).2.stat_store ∧
    (m61_calloc s nmemb sz block).2.calls = (m61_malloc s (nmemb * sz % 2 ^ 64) block).2.calls ∧
    (nmemb * sz < 2 ^ 64 →
      (m61_calloc s nmemb sz block).1 = (m61_malloc s (nmemb * sz) block).1 ∧
      (m61_calloc s nmemb sz block).2.stat_store = (m61_malloc s (nmemb * sz) block).2.stat_store ∧
      (m61_calloc s nmemb sz block).2.calls = (m61_malloc s (nmemb * sz) block).2.calls ∧
      ((m61_calloc s nmemb sz block).1 ≠ 0 → ∀ i, i < nmemb * sz →
        (m61_calloc s nmemb sz block).2.mem ((m61_calloc s nmemb sz block).1 + i) = 0)) ∧
    ((m61_calloc s nmemb sz block).1 ≠ 0 → ∀ i, i < nmemb * sz % 2 ^ 64 →
      (m61_calloc s nmemb sz block).2.mem ((m61_calloc s nmemb sz block).1 + i) = 0) := by
  have hgen : (m61_calloc s nmemb sz block).1 = (m61_malloc s (nmemb * sz % 2 ^ 64) block).1 ∧
      (m61_calloc s nmemb sz block).2.stat_store
        = (m61_malloc s (nmemb * sz % 2 ^ 64) block).2.stat_store ∧
      (m61_calloc s nmemb sz block).2.calls
        = (m61_malloc s (nmemb * sz % 2 ^ 64) block).2.calls ∧
      ((m61_calloc s nmemb sz block).1 ≠ 0 → ∀ i, i < nmemb * sz % 2 ^ 64 →
        (m61_calloc s nmemb sz block).2.mem ((m61_calloc s nmemb sz block).1 + i) = 0) := by
    by_cases hz : (m61_malloc s (nmemb * sz % WORD) block).1 = 0
    · have hc : m61_calloc s nmemb sz block = m61_malloc s (nmemb * sz % WORD) block := by
        simp [m61_calloc, hz]
      rw [hc]
      exact ⟨rfl, rfl, rfl, fun h => absurd hz h⟩
    · have hc : m61_calloc s nmemb sz block
          = ((m61_malloc s (nmemb * sz % WORD) block).1,
             { (m61_malloc s (nmemb * sz % WORD) block).2 with
               mem := memset (m61_malloc s (nmemb * sz % WORD) block).2.mem
                 (m61_malloc s (nmemb * sz % WORD) block).1 0 (nmemb * sz % WORD) }) := by
        simp [m61_calloc, hz]
      rw [hc]
      refine ⟨rfl, rfl, rfl, fun _ i hi => ?_⟩
      show memset _ _ 0 (nmemb * sz % WORD) _ = 0
      unfold memset
      rw [if_pos ⟨by omega, by unfold WORD; omega⟩]
  refine ⟨hgen.1, hgen.2.1, hgen.2.2.1, ?_, hgen.2.2.2⟩
  intro hlt
  have hmod : nmemb * sz % 2 ^ 64 = nmemb * sz := Nat.mod_eq_of_lt hlt
  rw [hmod] at hgen
  exact hgen

/-- Witness for C15: m61_calloc(4, 8) over a memory of 255s, answered with the block at 4096,
counts 32 bytes and leaves the last of the 32 payload bytes zero. -/
theorem m61_calloc_zeroed_witness :
    (m61_calloc (State.init dirty_mem) 4 8 4096).2.stat_store.total_size = 32 ∧
    (m61_calloc (State.init dirty_mem) 4 8 4096).2.mem (4104 + 31) = 0 ∧
    dirty_mem (4104 + 31) = 255 := by
  have h := (m61_calloc_zeroed (State.init dirty_mem) 4 8 4096).2.2.2.1 (by decide)
  refine ⟨?_, ?_, rfl⟩
  · rw [h.2.1]
    decide
  · have h2 := h.2.2.2 (by decide) 31 (by decide)
    have h1 : (m61_calloc (State.init dirty_mem) 4 8 4096).1 = 4104 := by decide
    rw [h1] at h2
    exact h2

/-- C16 (evaluation at the failing input): m61_calloc(2^32, 2^32), over a memory of 255s and answered with the block at 4096
for the 8 bytes asked of the provider, returns 4104 with a recorded payload size of 0, although
2^32 elements of 2^32 bytes take 2^64 bytes. -/
theorem m61_calloc_product_wraps :
    (m61_calloc (State.init dirty_mem) (2 ^ 32) (2 ^ 32) 4096).1 = 4104 ∧
    load64 (m61_calloc (State.init dirty_mem) (2 ^ 32) (2 ^ 32) 4096).2.mem 4096 = 0 ∧
    (m61_calloc (State.init dirty_mem) (2 ^ 32) (2 ^ 32) 4096).2.calls
      = [ProviderCall.base_malloc 8 4096] ∧
    (m61_calloc (State.init dirty_mem) (2 ^ 32) (2 ^ 32) 4096).2.stat_store.total_size = 0 ∧
    ¬ (2 ^ 32 * 2 ^ 32 ≤
      load64 (m61_calloc (State.init dirty_mem) (2 ^ 32) (2 ^ 32) 4096).2.mem 4096) := by
  decide

/-! ## Contents and copy length of a resize -/

theorem memcpy_down_eq (m : Mem) (dst src n : Nat) (h : src + n ≤ dst ∨ dst + n ≤ src) :
    memcpy_down m dst src n = memcpy m dst src n := by
  induction n generalizing m with
  | zero =>
    funext x
    simp only [memcpy_down, memcpy]
    rw [if_neg (by omega)]
  | succ n ih =>
    rw [memcpy_down, ih _ (by omega)]
    funext x
    simp only [memcpy]
    split_ifs <;> first | rfl | (exfalso; omega) | (congr 1; omega)

/-- Contents of a resize whose copy is defined: when ptr is an address whose preceding header
holds k, sz is nonzero, the resize returns a non-NULL address, the block the provider handed out
does not meet the old block and the k bytes of the copy do not overlap their source, then each of
the first min(k, sz) bytes of the returned payload equals the byte the old payload held at the
same offset before the call, and the direction of the copy makes no difference. -/
theorem m61_realloc_preserves (s : State) (ptr k sz block : Nat) (hlo : header_size ≤ ptr)
    (hhi : ptr < WORD) (hk : load64 s.mem (ptr - header_size) = k) (hsz : sz ≠ 0)
    (hok : (m61_realloc s ptr sz block).1 ≠ 0)
    (hfresh : block + header_size + sz ≤ ptr - header_size ∨ ptr + k ≤ block)
    (hdisj : ptr + k ≤ (m61_realloc s ptr sz block).1 ∨
      (m61_realloc s ptr sz block).1 + k ≤ ptr) :
    (∀ i, i < min k sz →
      (m61_realloc s ptr sz block).2.mem ((m61_realloc s ptr sz block).1 + i)
        = s.mem (ptr + i)) ∧
    memcpy_down (m61_malloc s sz block).2.mem (m61_malloc s sz block).1 ptr k
      = (m61_realloc s ptr sz block).2.mem := by
  have hp : ptr ≠ 0 := by unfold header_size at hlo; omega
  have ha : u64_sub ptr header_size = ptr - header_size := by
    simp only [u64_sub, header_size, WORD] at hlo hhi ⊢
    omega
  have hr1 : (m61_realloc s ptr sz block).1 = (m61_malloc s sz block).1 := by
    simp [m61_realloc, hsz]
  rw [hr1] at hok hdisj ⊢
  obtain ⟨hmax, hb⟩ := malloc_nonnull s sz block hok
  obtain ⟨-, hmem⟩ := malloc_ok_mem s sz block hmax hb
  have hold : load64 (m61_malloc s sz block).2.mem (ptr - header_size) = k := by
    rw [hmem, ← hk]
    apply load64_congr
    intro x hx1 hx2
    apply store64_other
    unfold header_size at *
    omega
  have hm : (m61_realloc s ptr sz block).2.mem
      = memcpy (m61_malloc s sz block).2.mem (m61_malloc s sz block).1 ptr k := by
    simp [m61_realloc, hsz, hp, hok, m61_free, ha, hold]
  refine ⟨?_, ?_⟩
  · intro i hi
    rw [hm]
    unfold memcpy
    rw [if_pos ⟨by omega, by omega⟩, Nat.add_sub_cancel_left, hmem]
    apply store64_other
    unfold header_size at *
    omega
  · rw [hm]
    exact memcpy_down_eq _ _ _ _ hdisj

/-- An instance of m61_realloc_preserves: the 10-byte block at 4104, whose fourth byte the caller
has set to 7, is resized to 20 bytes on the block at 8192; the fourth byte of the new payload
is 7. -/
theorem m61_realloc_preserves_example :
    ((Tracked.init zero_mem).run
      [Event.call (Op.malloc 10 4096), Event.poke 4107 7,
       Event.call (Op.realloc 4104 20 8192)]).st.mem (8200 + 3) = 7 := by
  have h := (m61_realloc_preserves
    ((Tracked.init zero_mem).run [Event.call (Op.malloc 10 4096), Event.poke 4107 7]).st
    4104 10 20 8192 (by decide) (by decide) (by decide) (by decide) (by decide) (by decide)
    (by decide)).1 3 (by decide)
  have h1 : (m61_realloc
      ((Tracked.init zero_mem).run [Event.call (Op.malloc 10 4096), Event.poke 4107 7]).st
      4104 20 8192).1 = 8200 := by decide
  rw [h1] at h
  have h2 : ((Tracked.init zero_mem).run
      [Event.call (Op.malloc 10 4096), Event.poke 4107 7]).st.mem (4104 + 3) = 7 := by decide
  rw [h2] at h
  exact h

/-- C11 (evaluation at the failing input): resizing the 32-byte block at 4120 to 8 bytes, with the
new block handed out at 4096, makes m61_realloc call memcpy with destination 4104, source 4120 and
length 32, the old size: the destination range reaches 4136 and overlaps the source.  The first
byte of the old payload is 7; a copy that reads every byte before the call puts 7 at 4104, a copy
that runs from the highest byte down puts 9 there, the seventeenth byte of the old payload. -/
theorem m61_realloc_copy_overlaps :
    (m61_malloc ((Tracked.init zero_mem).run overlap_setup).st 8 4096).1 = 4104 ∧
    load64 (m61_malloc ((Tracked.init zero_mem).run overlap_setup).st 8 4096).2.mem (4120 - 8)
      = 32 ∧
    (m61_realloc ((Tracked.init zero_mem).run overlap_setup).st 4120 8 4096).2.mem
      = memcpy (m61_malloc ((Tracked.init zero_mem).run overlap_setup).st 8 4096).2.mem
          4104 4120 32 ∧
    (4120 < 4104 + 32 ∧ 4104 < 4120 + 32) ∧
    ((Tracked.init zero_mem).run overlap_setup).st.mem 4120 = 7 ∧
    memcpy (m61_malloc ((Tracked.init zero_mem).run overlap_setup).st 8 4096).2.mem
      4104 4120 32 4104 = 7 ∧
    memcpy_down (m61_malloc ((Tracked.init zero_mem).run overlap_setup).st 8 4096).2.mem
      4104 4120 32 4104 = 9 := by
  refine ⟨by decide, by decide, rfl, by decide, by decide, by decide, by decide⟩

/-- C19 (evaluation at the failing input): resizing the 16-byte block at 4120 to 8 bytes returns
4104, whose payload ends at 4112; the byte at 4112, the first of the old header and 16 before the
call, holds 200 afterwards, the ninth byte of the old payload: bytes beyond the first 8 were
copied. -/
theorem m61_realloc_copies_old_size :
    ((Tracked.init zero_mem).run shrink_setup).st.mem 4112 = 16 ∧
    ((Tracked.init zero_mem).run shrink_setup).st.mem (4120 + 8) = 200 ∧
    (m61_realloc ((Tracked.init zero_mem).run shrink_setup).st 4120 8 4096).1 = 4104 ∧
    (m61_realloc ((Tracked.init zero_mem).run shrink_setup).st 4120 8 4096).2.mem (4104 + 8)
      = 200 ∧
    (m61_realloc ((Tracked.init zero_mem).run shrink_setup).st 4120 8 4096).2.calls
      = [ProviderCall.base_malloc 24 4112, ProviderCall.base_malloc 16 4096,
         ProviderCall.base_free 4120] := by
  decide

/-- C20 (evaluation at the failing input): after the 16-byte block at 4120 is resized to 8 bytes,
one block of 8 bytes is live, nactive is 1, ntotal 2 and total_size 24, but active_size is
2^64 - 176 and not 16 - 16 + 8: the release subtracted 200, the value the copy left in the old
header. -/
theorem m61_realloc_shrink_statistics :
    ((Tracked.init zero_mem).run shrink_setup).st.stat_store.active_size = 16 ∧
    (((Tracked.init zero_mem).run shrink_setup).exec shrink_call).live = [(4104, 8)] ∧
    (((Tracked.init zero_mem).run shrink_setup).exec shrink_call).st.stat_store.nactive = 1 ∧
    (((Tracked.init zero_mem).run shrink_setup).exec shrink_call).st.stat_store.ntotal = 2 ∧
    (((Tracked.init zero_mem).run shrink_setup).exec shrink_call).st.stat_store.total_size
      = 24 ∧
    (((Tracked.init zero_mem).run shrink_setup).exec shrink_call).st.stat_store.active_size
      = 2 ^ 64 - 176 ∧
    (((Tracked.init zero_mem).run shrink_setup).exec shrink_call).st.stat_store.active_size
      ≠ 16 - 16 + 8 := by
  decide

/-! ## Heap bounds -/

theorem bounds_step (lo hi : Nat) (H : List (Nat × Nat)) (data sz : Nat)
    (h : bounds_ok lo hi H) (hd : 0 < data) :
    bounds_ok (if lo = 0 ∨ data ≤ lo then data else lo)
      (if hi = 0 ∨ data + sz ≥ hi then data + sz else hi) (H ++ [(data, sz)]) := by
  obtain ⟨h1, h2, h3, h4⟩ := h
  have hne : H ++ [(data, sz)] ≠ [] := by simp
  refine ⟨?_, ?_, ?_, fun _ => ⟨?_, ?_⟩⟩
  · constructor
    · intro h0
      split at h0
      · omega
      · rename_i hc
        exact absurd (Or.inl h0) hc
    · intro h0
      exact absurd h0 hne
  · constructor
    · intro h0
      split at h0
      · omega
      · rename_i hc
        exact absurd (Or.inl h0) hc
    · intro h0
      exact absurd h0 hne
  · intro b hb
    rcases List.mem_append.mp hb with hbH | hbn
    · have hb3 := h3 b hbH
      have hHne : H ≠ [] := List.ne_nil_of_mem hbH
      have hlo : lo ≠ 0 := fun h => hHne (h1.mp h)
      have hhi : hi ≠ 0 := fun h => hHne (h2.mp h)
      constructor
      · split
        · rename_i hc
          rcases hc with hc | hc
          · exact absurd hc hlo
          · omega
        · exact hb3.1
      · split
        · rename_i hc
          rcases hc with hc | hc
          · exact absurd hc hhi
          · omega
        · exact hb3.2
    · have hbe : b = (data, sz) := by simpa using hbn
      subst hbe
      constructor
      · split
        · exact le_refl _
        · rename_i hc
          simp only [not_or, not_le] at hc
          exact le_of_lt hc.2
      · split
        · exact le_refl _
        · rename_i hc
          simp only [not_or, ge_iff_le, not_le] at hc
          exact le_of_lt hc.2
  · split
    · exact ⟨(data, sz), by simp, rfl⟩
    · rename_i hc
      simp only [not_or] at hc
      have hHne : H ≠ [] := fun h => hc.1 (h1.mpr h)
      obtain ⟨b, hb, hbe⟩ := (h4 hHne).1
      exact ⟨b, List.mem_append_left _ hb, hbe⟩
  · split
    · exact ⟨(data, sz), by simp, rfl⟩
    · rename_i hc
      simp only [not_or] at hc
      have hHne : H ≠ [] := fun h => hc.1 (h2.mpr h)
      obtain ⟨b, hb, hbe⟩ := (h4 hHne).2
      exact ⟨b, List.mem_append_left _ hb, hbe⟩

/-- The heap bounds after m61_malloc: unchanged together with a NULL result, or updated with the
returned address and its end. -/
theorem malloc_heap (s : State) (sz block : Nat)
    (hn : sz = SIZE_MAX ∨ block = 0 ∨ block + header_size + sz < WORD) :
    ((m61_malloc s sz block).1 = 0 ∧
      (m61_malloc s sz block).2.stat_store.heap_min = s.stat_store.heap_min ∧
      (m61_malloc s sz block).2.stat_store.heap_max = s.stat_store.heap_max) ∨
    (0 < (m61_malloc s sz block).1 ∧
      (m61_malloc s sz block).2.stat_store.heap_min
        = (if s.stat_store.heap_min = 0 ∨ (m61_malloc s sz block).1 ≤ s.stat_store.heap_min
            then (m61_malloc s sz block).1 else s.stat_store.heap_min) ∧
      (m61_malloc s sz block).2.stat_store.heap_max
        = (if s.stat_store.heap_max = 0 ∨ (m61_malloc s sz block).1 + sz ≥ s.stat_store.heap_max
            then (m61_malloc s sz block).1 + sz else s.stat_store.heap_max)) := by
  by_cases hmax : sz = SIZE_MAX
  · left
    simp [m61_malloc, hmax]
  by_cases hb : block = 0
  · left
    simp [m61_malloc, hmax, hb]
  right
  have hfit : block + header_size + sz < WORD := by
    rcases hn with h | h | h
    · exact absurd h hmax
    · exact absurd h hb
    · exact h
  have hd : u64_add block header_size = block + header_size := by
    simp only [u64_add, header_size, WORD] at hfit ⊢
    omega
  have he : u64_add (block + header_size) sz = block + header_size + sz := by
    simp only [u64_add, header_size, WORD] at hfit ⊢
    omega
  simp only [m61_malloc, if_neg hmax, if_neg hb, hd, he]
  refine ⟨?_, trivial, trivial⟩
  unfold header_size
  omega

theorem free_heap (s : State) (ptr : Nat) :
    (m61_free s ptr).stat_store.heap_min = s.stat_store.heap_min ∧
    (m61_free s ptr).stat_store.heap_max = s.stat_store.heap_max := by
  by_cases hp : ptr = 0
  · simp [m61_free, hp]
  · simp only [m61_free, if_neg hp]
    exact ⟨trivial, trivial⟩

/-- The heap bounds after any call: unchanged together with a NULL result, or updated with the
returned address and its end. -/
theorem op_heap (s : State) (op : Op) (hn : op.nowrap) :
    ((op.run s).1 = 0 ∧
      (op.run s).2.stat_store.heap_min = s.stat_store.heap_min ∧
      (op.run s).2.stat_store.heap_max = s.stat_store.heap_max) ∨
    (0 < (op.run s).1 ∧
      (op.run s).2.stat_store.heap_min
        = (if s.stat_store.heap_min = 0 ∨ (op.run s).1 ≤ s.stat_store.heap_min
            then (op.run s).1 else s.stat_store.heap_min) ∧
      (op.run s).2.stat_store.heap_max
        = (if s.stat_store.heap_max = 0 ∨ (op.run s).1 + op.request ≥ s.stat_store.heap_max
            then (op.run s).1 + op.request else s.stat_store.heap_max)) := by
  cases op with
  | malloc sz block => exact malloc_heap s sz block hn
  | free ptr =>
    left
    exact ⟨rfl, free_heap s ptr⟩
  | realloc ptr sz block =>
    by_cases hs0 : sz = 0
    · have he : (Op.realloc ptr sz block).run s = (0, m61_free s ptr) := by
        simp [Op.run, m61_realloc, hs0]
      left
      rw [he]
      exact ⟨rfl, free_heap s ptr⟩
    · have h1 : ((Op.realloc ptr sz block).run s).1 = (m61_malloc s sz block).1 := by
        simp [Op.run, m61_realloc, hs0]
      have he : ∃ m2 : Mem, ((Op.realloc ptr sz block).run s).2
          = m61_free { (m61_malloc s sz block).2 with mem := m2 } ptr := by
        by_cases hc : ptr ≠ 0 ∧ (m61_malloc s sz block).1 ≠ 0
        · exact ⟨memcpy (m61_malloc s sz block).2.mem (m61_malloc s sz block).1 ptr
              (load64 (m61_malloc s sz block).2.mem (u64_sub ptr header_size)),
            by simp only [Op.run, m61_realloc, if_pos hs0, if_pos hc]⟩
        · exact ⟨(m61_malloc s sz block).2.mem,
            by simp only [Op.run, m61_realloc, if_pos hs0, if_neg hc]⟩
      obtain ⟨m2, he⟩ := he
      obtain ⟨a, b⟩ := free_heap { (m61_malloc s sz block).2 with mem := m2 } ptr
      rw [h1, he, a, b]
      exact malloc_heap s sz block (hn.resolve_left hs0)
  | calloc nmemb sz block =>
    have h1 : ((Op.calloc nmemb sz block).run s).1
        = (m61_malloc s (nmemb * sz % WORD) block).1 := by
      by_cases hc : (m61_malloc s (nmemb * sz % WORD) block).1 ≠ 0
      · simp only [Op.run, m61_calloc, if_pos hc]
      · simp only [Op.run, m61_calloc, if_neg hc]
    have he : ∃ m2 : Mem, ((Op.calloc nmemb sz block).run s).2
        = { (m61_malloc s (nmemb * sz % WORD) block).2 with mem := m2 } := by
      by_cases hc : (m61_malloc s (nmemb * sz % WORD) block).1 ≠ 0
      · exact ⟨memset (m61_malloc s (nmemb * sz % WORD) block).2.mem
            (m61_malloc s (nmemb * sz % WORD) block).1 0 (nmemb * sz % WORD),
          by simp only [Op.run, m61_calloc, if_pos hc]⟩
      · exact ⟨(m61_malloc s (nmemb * sz % WORD) block).2.mem,
          by simp only [Op.run, m61_calloc, if_neg hc]⟩
    obtain ⟨m2, he⟩ := he
    rw [h1, he]
    exact malloc_heap s (nmemb * sz % WORD) block hn

/-- The state after a tracked call is the state the call itself leaves. -/
theorem exec_call_st (t : Tracked) (op : Op) : (t.exec (Event.call op)).st = (op.run t.st).2 := by
  cases op with
  | malloc sz block =>
    show (t.record (m61_malloc t.st sz block) sz).st = (m61_malloc t.st sz block).2
    unfold Tracked.record
    split <;> rfl
  | free ptr => rfl
  | realloc ptr sz block =>
    show (t.record (m61_realloc t.st ptr sz block) sz).st = (m61_realloc t.st ptr sz block).2
    unfold Tracked.record
    split <;> rfl
  | calloc nmemb sz block =>
    show (t.record (m61_calloc t.st nmemb sz block) (nmemb * sz % WORD)).st
      = (m61_calloc t.st nmemb sz block).2
    unfold Tracked.record
    split <;> rfl

/-- Along a run whose provider answers do not wrap, the heap bounds agree with the allocations
that have succeeded. -/
theorem bounds_run (t : Tracked) (es : List Event) (H : List (Nat × Nat))
    (h : bounds_ok t.st.stat_store.heap_min t.st.stat_store.heap_max H)
    (hn : ∀ e ∈ es, e.nowrap) :
    bounds_ok (t.run es).st.stat_store.heap_min (t.run es).st.stat_store.heap_max
      (H ++ history t es) := by
  induction es generalizing t H with
  | nil => simpa [Tracked.run, history] using h
  | cons e es ih =>
    have hn1 : e.nowrap := hn e (List.mem_cons_self _ _)
    have hn2 : ∀ x ∈ es, x.nowrap := fun x hx => hn x (List.mem_cons_of_mem _ hx)
    cases e with
    | call op =>
      have key : bounds_ok (t.exec (Event.call op)).st.stat_store.heap_min
          (t.exec (Event.call op)).st.stat_store.heap_max
          (H ++ (if (op.run t.st).1 ≠ 0 then [((op.run t.st).1, op.request)] else [])) := by
        rw [exec_call_st]
        rcases op_heap t.st op hn1 with ⟨h0, hlo, hhi⟩ | ⟨hpos, hlo, hhi⟩
        · have hif : (if (op.run t.st).1 ≠ 0 then [((op.run t.st).1, op.request)] else [])
              = [] := if_neg (by simp [h0])
          rw [hif, hlo, hhi, List.append_nil]
          exact h
        · have hif : (if (op.run t.st).1 ≠ 0 then [((op.run t.st).1, op.request)] else [])
              = [((op.run t.st).1, op.request)] := if_pos (by omega)
          rw [hif, hlo, hhi]
          exact bounds_step _ _ H _ _ h hpos
      have := ih (t.exec (Event.call op)) _ key hn2
      simpa [Tracked.run, history, List.append_assoc] using this
    | poke addr val =>
      have := ih (t.exec (Event.poke addr val)) H h hn2
      simpa [Tracked.run, history] using this

/-- C17: along every run from the initial state in which the blocks the provider returns do not
wrap, heap_min is NULL exactly when no allocation has succeeded, and so is heap_max; otherwise
heap_min is the smallest address returned so far and heap_max the largest address + requested
size, releases in between notwithstanding; m61_free changes neither bound, and neither does a call
that returns NULL. -/
theorem heap_bounds (m : Mem) (es : List Event) (hn : ∀ e ∈ es, e.nowrap) :
    (((Tracked.init m).run es).st.stat_store.heap_min = 0 ↔ history (Tracked.init m) es = []) ∧
    (((Tracked.init m).run es).st.stat_store.heap_max = 0 ↔ history (Tracked.init m) es = []) ∧
    (∀ b ∈ history (Tracked.init m) es,
      ((Tracked.init m).run es).st.stat_store.heap_min ≤ b.1 ∧
      b.1 + b.2 ≤ ((Tracked.init m).run es).st.stat_store.heap_max) ∧
    (history (Tracked.init m) es ≠ [] →
      (∃ b ∈ history (Tracked.init m) es,
        b.1 = ((Tracked.init m).run es).st.stat_store.heap_min) ∧
      ∃ b ∈ history (Tracked.init m) es,
        b.1 + b.2 = ((Tracked.init m).run es).st.stat_store.heap_max) ∧
    (∀ (s : State) (ptr : Nat),
      (m61_free s ptr).stat_store.heap_min = s.stat_store.heap_min ∧
      (m61_free s ptr).stat_store.heap_max = s.stat_store.heap_max) ∧
    (∀ (s : State) (op : Op), op.nowrap → (op.run s).1 = 0 →
      (op.run s).2.stat_store.heap_min = s.stat_store.heap_min ∧
      (op.run s).2.stat_store.heap_max = s.stat_store.heap_max) := by
  have h0 : bounds_ok (Tracked.init m).st.stat_store.heap_min
      (Tracked.init m).st.stat_store.heap_max [] := by
    simp [bounds_ok, Tracked.init, State.init, stat_store_init]
  have h := bounds_run (Tracked.init m) es [] h0 hn
  rw [List.nil_append] at h
  obtain ⟨h1, h2, h3, h4⟩ := h
  refine ⟨h1, h2, h3, h4, free_heap, ?_⟩
  intro s op hop hz
  rcases op_heap s op hop with ⟨_, hlo, hhi⟩ | ⟨hpos, _, _⟩
  · exact ⟨hlo, hhi⟩
  · omega

/-- Witness for C17: in the sample run three allocations succeed, at 4104, 8200 and 12296; the
bounds end at 4104 and at 12296 + 20, although the first two blocks have been released. -/
theorem heap_bounds_witness :
    history (Tracked.init zero_mem) sample_run = [(4104, 10), (8200, 32), (12296, 20)] ∧
    ((Tracked.init zero_mem).run sample_run).live = [(12296, 20)] ∧
    ((Tracked.init zero_mem).run sample_run).st.stat_store.heap_min = 4104 ∧
    ((Tracked.init zero_mem).run sample_run).st.stat_store.heap_max = 12316 ∧
    (∀ b ∈ history (Tracked.init zero_mem) sample_run,
      ((Tracked.init zero_mem).run sample_run).st.stat_store.heap_min ≤ b.1 ∧
      b.1 + b.2 ≤ ((Tracked.init zero_mem).run sample_run).st.stat_store.heap_max) := by
  have hn : ∀ e ∈ sample_run, e.nowrap := by
    simp [sample_run, Event.nowrap, Op.nowrap, SIZE_MAX, WORD, header_size]
  exact ⟨by decide, by decide, by decide, by decide, (heap_bounds zero_mem sample_run hn).2.2.1⟩

end M61
